import Mathlib

/-!
Verification development for the AstrBot-desktop release tooling.

The Lean definitions below are a shallow embedding of the Python sources:

* `src/scripts/cpython/resolve_packaged_cpython_runtime.py` — the runtime
  acquisition pipeline (trusted digest resolution, download, sha256
  verification, extraction, install, probing).
* `src/scripts/ci/generate-updater-manifest.py` — the updater-manifest
  synthesis pipeline (artifact scanning, platform classification,
  signature pairing, manifest building).
* `src/scripts/ci/validate-release-artifacts.py` — the duplicate-basename
  guard over a merged artifact tree.
* `src/scripts/ci/read-project-version.py` — project version reader.

Machine integers are modelled as `Nat` with explicit `% 2^32` where the
source relies on 32-bit wraparound (the sha256 computation).  Filesystem
and network effects are modelled by explicit environment records and
explicit state passing; fallible steps return `Except`.  Strings are
assumed ASCII (all inputs handled by these scripts are ASCII file names,
hex digests and identifiers), so Python's `str.lower`/`str.strip` and
`re.IGNORECASE` are modelled by their ASCII restrictions.
-/

/-! ### Basic string helpers (ASCII restrictions of Python's str methods) -/

/-- ASCII lowercasing of one character (Python `str.lower` restricted to
ASCII, which is exact for every string these scripts handle). -/
def asciiLower (c : Char) : Char :=
  if 65 ≤ c.toNat ∧ c.toNat ≤ 90 then Char.ofNat (c.toNat + 32) else c

/-- ASCII lowercasing of a string. -/
def strLower (s : String) : String := String.mk (s.toList.map asciiLower)

/-- The whitespace characters stripped by Python's `str.strip()`
(ASCII subset). -/
def isPyWhite (c : Char) : Bool :=
  c = ' ' || c = '\t' || c = '\n' || c = '\x0d' || c = '\x0b' || c = '\x0c'

/-- Drop leading whitespace from a character list. -/
def dropWhiteLeft : List Char → List Char
  | [] => []
  | c :: rest => if isPyWhite c then dropWhiteLeft rest else c :: rest

/-- Python `str.strip()` (ASCII whitespace). -/
def pyStrip (s : String) : String :=
  String.mk (dropWhiteLeft ((dropWhiteLeft s.toList.reverse).reverse))

/-- List-of-strings membership keyed lookup used to model Python dict
insertion: inserting an existing key replaces its value in place
(preserving the key's original position), a new key is appended. -/
def dictInsert {β : Type} (k : String) (v : β) : List (String × β) → List (String × β)
  | [] => [(k, v)]
  | (k', v') :: rest => if k' = k then (k', v) :: rest else (k', v') :: dictInsert k v rest

/-! ### sha256 (faithful embedding of `hashlib.sha256(...).hexdigest()`)

Words are `Nat` reduced mod `2^32`; the message is a list of byte values.
Constants are the FIPS 180-4 round constants and initial hash value. -/

def M32 : Nat := 4294967296

def add32 (a b : Nat) : Nat := (a + b) % M32

/-- Rotate a 32-bit word right by `n` (for `n ≤ 32`). -/
def rotr32 (n x : Nat) : Nat := x / 2 ^ n + x % 2 ^ n * 2 ^ (32 - n)

/-- Logical shift right. -/
def shr32 (n x : Nat) : Nat := x / 2 ^ n

def xor3 (a b c : Nat) : Nat := Nat.xor (Nat.xor a b) c

def bitNot32 (x : Nat) : Nat := (M32 - 1) - x % M32

def sigBig0 (x : Nat) : Nat := xor3 (rotr32 2 x) (rotr32 13 x) (rotr32 22 x)
def sigBig1 (x : Nat) : Nat := xor3 (rotr32 6 x) (rotr32 11 x) (rotr32 25 x)
def sigSmall0 (x : Nat) : Nat := xor3 (rotr32 7 x) (rotr32 18 x) (shr32 3 x)
def sigSmall1 (x : Nat) : Nat := xor3 (rotr32 17 x) (rotr32 19 x) (shr32 10 x)

def chFn (x y z : Nat) : Nat := Nat.xor (Nat.land x y) (Nat.land (bitNot32 x) z)
def majFn (x y z : Nat) : Nat := xor3 (Nat.land x y) (Nat.land x z) (Nat.land y z)

def sha256K : List Nat :=
  [1116352408, 1899447441, 3049323471, 3921009573, 961987163, 1508970993,
   2453635748, 2870763221, 3624381080, 310598401, 607225278, 1426881987,
   1925078388, 2162078206, 2614888103, 3248222580, 3835390401, 4022224774,
   264347078, 604807628, 770255983, 1249150122, 1555081692, 1996064986,
   2554220882, 2821834349, 2952996808, 3210313671, 3336571891, 3584528711,
   113926993, 338241895, 666307205, 773529912, 1294757372, 1396182291,
   1695183700, 1986661051, 2177026350, 2456956037, 2730485921, 2820302411,
   3259730800, 3345764771, 3516065817, 3600352804, 4094571909, 275423344,
   430227734, 506948616, 659060556, 883997877, 958139571, 1322822218,
   1537002063, 1747873779, 1955562222, 2024104815, 2227730452, 2361852424,
   2428436474, 2756734187, 3204031479, 3329325298]

def sha256H0 : List Nat :=
  [1779033703, 3144134277, 1013904242, 2773480762, 1359893119, 2600822924,
   528734635, 1541459225]

/-- Big-endian 8-byte encoding of a natural number (the length field of
the sha256 padding). -/
def beBytes8 (n : Nat) : List Nat :=
  [n / 2 ^ 56 % 256, n / 2 ^ 48 % 256, n / 2 ^ 40 % 256, n / 2 ^ 32 % 256,
   n / 2 ^ 24 % 256, n / 2 ^ 16 % 256, n / 2 ^ 8 % 256, n % 256]

/-- sha256 message padding: `0x80`, zeros to 56 mod 64, then the bit
length as 8 big-endian bytes. -/
def sha256Pad (msg : List Nat) : List Nat :=
  msg ++ [128] ++ List.replicate ((119 - msg.length % 64) % 64) 0 ++ beBytes8 (msg.length * 8)

/-- Group a byte list into chunks of `n` bytes (structural recursion so
that it reduces in the kernel). -/
def chunksAux (n : Nat) : List Nat → List Nat → List (List Nat)
  | [], acc => if acc.isEmpty then [] else [acc]
  | x :: rest, acc =>
    if acc.length + 1 = n then (acc ++ [x]) :: chunksAux n rest []
    else chunksAux n rest (acc ++ [x])

def chunks (n : Nat) (l : List Nat) : List (List Nat) := chunksAux n l []

/-- Combine 4 bytes big-endian into a 32-bit word list. -/
def wordsOfBytes : List Nat → List Nat
  | b0 :: b1 :: b2 :: b3 :: rest => (((b0 * 256 + b1) * 256 + b2) * 256 + b3) :: wordsOfBytes rest
  | _ => []

/-- One message-schedule extension step: appends
`σ1(W[t-2]) + W[t-7] + σ0(W[t-15]) + W[t-16]  (mod 2^32)`. -/
def schedStep (ws : List Nat) : List Nat :=
  ws ++ [add32 (add32 (sigSmall1 (ws.getD (ws.length - 2) 0)) (ws.getD (ws.length - 7) 0))
              (add32 (sigSmall0 (ws.getD (ws.length - 15) 0)) (ws.getD (ws.length - 16) 0))]

def extendSched : Nat → List Nat → List Nat
  | 0, ws => ws
  | n + 1, ws => extendSched n (schedStep ws)

/-- One sha256 compression round on the 8-word state. -/
def sha256Round (st : List Nat) (kw : Nat × Nat) : List Nat :=
  match st with
  | [a, b, c, d, e, f, g, h] =>
    let t1 := add32 (add32 (add32 h (sigBig1 e)) (add32 (chFn e f g) kw.1)) kw.2
    let t2 := add32 (sigBig0 a) (majFn a b c)
    [add32 t1 t2, a, b, c, add32 d t1, e, f, g]
  | other => other

/-- Process one 64-byte block. -/
def sha256Block (h : List Nat) (block : List Nat) : List Nat :=
  let ws := extendSched 48 (wordsOfBytes block)
  let st := (sha256K.zip ws).foldl sha256Round h
  (h.zip st).map (fun p => add32 p.1 p.2)

/-- The eight 32-bit words of the sha256 digest of a byte list. -/
def sha256Words (msg : List Nat) : List Nat :=
  (chunks 64 (sha256Pad msg)).foldl sha256Block sha256H0

/-- Lowercase hexadecimal digit characters, as produced by `hexdigest()`. -/
def hexDigitChar (n : Nat) : Char :=
  if n = 0 then '0' else if n = 1 then '1' else if n = 2 then '2'
  else if n = 3 then '3' else if n = 4 then '4' else if n = 5 then '5'
  else if n = 6 then '6' else if n = 7 then '7' else if n = 8 then '8'
  else if n = 9 then '9' else if n = 10 then 'a' else if n = 11 then 'b'
  else if n = 12 then 'c' else if n = 13 then 'd' else if n = 14 then 'e'
  else 'f'

/-- Eight lowercase hex digits of a 32-bit word. -/
def hexWord (x : Nat) : List Char :=
  [hexDigitChar (x / 16 ^ 7 % 16), hexDigitChar (x / 16 ^ 6 % 16),
   hexDigitChar (x / 16 ^ 5 % 16), hexDigitChar (x / 16 ^ 4 % 16),
   hexDigitChar (x / 16 ^ 3 % 16), hexDigitChar (x / 16 ^ 2 % 16),
   hexDigitChar (x / 16 % 16), hexDigitChar (x % 16)]

/-- Embedding of `hashlib.sha256(payload).hexdigest()`: the 64-character lowercase hex
digest of a byte list (the streaming chunked read in `_calculate_sha256`
hashes exactly the file's bytes, so it is the digest of the payload). -/
def sha256Hex (msg : List Nat) : String :=
  String.mk ((sha256Words msg).flatMap hexWord)

/-- FIPS 180-4 test vector: digest of the empty message.  This pins the
embedding of sha256 to the real function. -/
theorem sha256Hex_empty_vector :
    sha256Hex [] = "e3b0c44298fc1c149afbf4c8996fb92427ae41e4649b934ca495991b7852b855" := by
  decide

/-- FIPS 180-4 test vector: digest of `"abc"` (bytes 97 98 99). -/
theorem sha256Hex_abc_vector :
    sha256Hex [97, 98, 99] = "ba7816bf8f01cfea414140de5dae2223b00361a396177a9cb410ff61f20015ad" := by
  decide

/-- Hex digit characters are fixed by ASCII lowercasing. -/
theorem asciiLower_hexDigitChar (n : Nat) : asciiLower (hexDigitChar n) = hexDigitChar n := by
  rcases n with _|_|_|_|_|_|_|_|_|_|_|_|_|_|_|_|n <;> rfl

/-- The `hexdigest()` output contains no uppercase characters: lowering it is
the identity. -/
theorem strLower_sha256Hex (m : List Nat) : strLower (sha256Hex m) = sha256Hex m := by
  unfold strLower sha256Hex
  congr 1
  show ((sha256Words m).flatMap hexWord).map asciiLower = (sha256Words m).flatMap hexWord
  rw [List.map_flatMap]
  refine List.flatMap_congr ?_
  intro x _
  simp [hexWord, asciiLower_hexDigitChar]

/-- Case-insensitive string equality (the spec's notion of comparing hex
digests "case-insensitively", ASCII). -/
def ciEq (a b : String) : Prop := strLower a = strLower b

instance (a b : String) : Decidable (ciEq a b) :=
  inferInstanceAs (Decidable (strLower a = strLower b))

/-- Tests whether `pre` is a prefix of `s` (Python `str.startswith`), computed on the
character lists so that it reduces in the kernel. -/
def strStartsWith (s pre : String) : Bool := pre.toList.isPrefixOf s.toList

/-- Drop the first `n` characters of `s`, computed on the character
lists so that it reduces in the kernel. -/
def strDropChars (s : String) (n : Nat) : String := String.mk (s.toList.drop n)

/-! ### Runtime acquisition pipeline
(`src/scripts/cpython/resolve_packaged_cpython_runtime.py`)

Network responses, the downloaded payload, the archive contents and the
probe results are supplied by an explicit environment record; the
pipeline threads the state of the target install directory and records
the filesystem/stage events it performs, in source order. -/

/-- A top-level-relative entry written by `tarfile.extractall`. -/
structure TarEntry where
  path : List String
  isDir : Bool
deriving DecidableEq, Repr

/-- One asset descriptor from the GitHub release metadata (`name` plus
the optional `digest` field; `none` models an absent or non-string
digest). Non-dict items of the JSON `assets` array are dropped by the
source's `isinstance` guard and are not modelled. -/
structure AssetItem where
  name : String
  digest : Option String
deriving DecidableEq, Repr

/-- Outcome of `_read_json_with_retries` plus the shape of the `assets`
field: network failure after all retries, a response whose `assets`
field is missing or not a list, or the parsed asset list. -/
inductive MetaResult
  | netFail
  | badAssets
  | ok (assets : List AssetItem)
deriving DecidableEq, Repr

inductive PipelineError
  | missingEnv (name : String)
  | metadataFetchFailed
  | metadataFormat
  | assetNotFound (assetName : String)
  | digestUnavailable (assetName : String)
  | downloadFailed
  | integrityMismatch (expected actual : String)
  | archiveLayout
  | binaryNotFound
  | probeFailed (label : String)
deriving DecidableEq, Repr

/-- Stage/filesystem events of one pipeline run, in execution order. -/
inductive Event
  | removePriorTarget
  | removeStaleExtract
  | mkExtractDir
  | downloadArchive
  | extractArchive
  | installCopy
  | probeVersion
  | probeSsl
deriving DecidableEq, Repr

/-- The content of the target install directory. -/
inductive RuntimeImage
  | prior (id : Nat)
  | installed (entries : List TarEntry)
deriving DecidableEq, Repr

structure RuntimeEnv where
  /-- Raw value of `RUNNER_TEMP_DIR`, if set. -/
  runnerTempDirVar : Option String
  /-- Raw value of `RUNNER_TEMP`, if set. -/
  runnerTempVar : Option String
  /-- Raw values of the three `PYTHON_BUILD_STANDALONE_*` variables. -/
  releaseVar : Option String
  versionVar : Option String
  targetVar : Option String
  /-- Release metadata as seen by `_resolve_expected_sha256`. -/
  metadata : MetaResult
  /-- Result of the download retry loop: payload bytes or failure. -/
  download : Except Unit (List Nat)
  /-- Top-level entries the verified archive extracts to. -/
  archive : List TarEntry
  /-- Identity of a prior installation at the target path, if present. -/
  priorInstall : Option Nat
  /-- Whether a stale staging directory exists at `extract_root`. -/
  extractDirExists : Bool
  /-- Value of `sys.platform == "win32"`. -/
  isWin32 : Bool
  /-- File-existence oracle inside the installed runtime tree, consulted
  by `_resolve_runtime_python` for its candidate relative paths. -/
  installedIsFile : List String → Bool
  /-- Exit codes of the two smoke probes. -/
  probeVersionRc : Nat
  probeSslRc : Nat

/-- Embedding of `_require_env`: strip the variable's value and fail when missing or
empty. -/
def requireEnv (name : String) (v : Option String) : Except PipelineError String :=
  if pyStrip (v.getD "") = "" then .error (.missingEnv name) else .ok (pyStrip (v.getD ""))

/-- Python's `a or b` on optional strings: an unset or empty `a` falls
through to `b`. -/
def pyOrElse (a b : Option String) : Option String :=
  match a with
  | some s => if s = "" then b else some s
  | none => b

/-- Embedding of `_resolve_expected_sha256`: select the asset by exact name, require a
`sha256:`-prefixed digest, return the hex part lowercased. -/
def resolveExpectedSha256 (meta : MetaResult) (assetName : String) :
    Except PipelineError String :=
  match meta with
  | .netFail => .error .metadataFetchFailed
  | .badAssets => .error .metadataFormat
  | .ok assets =>
    match assets.find? (fun item => item.name = assetName) with
    | none => .error (.assetNotFound assetName)
    | some item =>
      match item.digest with
      | none => .error (.digestUnavailable assetName)
      | some d =>
        if strStartsWith d "sha256:" then .ok (strLower (strDropChars d 7))
        else .error (.digestUnavailable assetName)

/-- The asset file name assembled in `main`. -/
def assetNameOf (version release target : String) : String :=
  "cpython-" ++ version ++ "+" ++ release ++ "-" ++ target ++ "-install_only_stripped.tar.gz"

/-- Resolution phase of `main`: everything up to and including
`_resolve_expected_sha256`, which performs no filesystem effect. -/
def phaseResolve (env : RuntimeEnv) : Except PipelineError String :=
  match pyOrElse env.runnerTempDirVar env.runnerTempVar with
  | none => .error (.missingEnv "RUNNER_TEMP_DIR or RUNNER_TEMP")
  | some rt =>
    if rt = "" then .error (.missingEnv "RUNNER_TEMP_DIR or RUNNER_TEMP")
    else
      match requireEnv "PYTHON_BUILD_STANDALONE_RELEASE" env.releaseVar with
      | .error e => .error e
      | .ok release =>
        match requireEnv "PYTHON_BUILD_STANDALONE_VERSION" env.versionVar with
        | .error e => .error e
        | .ok version =>
          match requireEnv "PYTHON_BUILD_STANDALONE_TARGET" env.targetVar with
          | .error e => .error e
          | .ok target => resolveExpectedSha256 env.metadata (assetNameOf version release target)

/-- Embedding of `(extract_root / "python").is_dir()` after `extractall`: a top-level
directory named `python` exists, either as an explicit directory entry or
as the implicit parent of a deeper entry. -/
def layoutOk (entries : List TarEntry) : Bool :=
  entries.any fun e =>
    (e.path = ["python"] && e.isDir) || (e.path.headD "" = "python" && e.path.length > 1)

/-- The subtree of the archive under `python/` that `shutil.copytree`
copies to the target (paths relative to the copied root). -/
def entriesUnderPython (entries : List TarEntry) : List TarEntry :=
  entries.filterMap fun e =>
    match e.path with
    | "python" :: rest => if rest.isEmpty then none else some ⟨rest, e.isDir⟩
    | _ => none

/-- Embedding of `_resolve_runtime_python`: the fixed ordered candidate relative paths
per platform, first existing file wins. -/
def resolveRuntimePython (isWin32 : Bool) (isFile : List String → Bool) :
    Option (List String) :=
  let candidates :=
    if isWin32 then [["python.exe"], ["Scripts", "python.exe"]]
    else [["bin", "python3"], ["bin", "python"]]
  candidates.find? isFile

/-- The target install directory before the run starts. -/
def initTarget (env : RuntimeEnv) : Option RuntimeImage :=
  env.priorInstall.map RuntimeImage.prior

structure RunResult where
  events : List Event
  target : Option RuntimeImage
  outcome : Except PipelineError Unit
deriving Repr

/-- The whole of `main` in
`src/scripts/cpython/resolve_packaged_cpython_runtime.py`, in source
order: resolve env vars and the trusted digest; remove a pre-existing
target install directory and stale staging directory; create the staging
directory; download; verify sha256; extract; check the archive layout;
copy the staged `python/` tree to the target; locate the runtime binary
and run the version and ssl probes. -/
def runMain (env : RuntimeEnv) : RunResult :=
  match phaseResolve env with
  | .error e => ⟨[], initTarget env, .error e⟩
  | .ok expected =>
    let ev1 := (if env.priorInstall.isSome then [Event.removePriorTarget] else []) ++
      (if env.extractDirExists then [Event.removeStaleExtract] else []) ++
      [Event.mkExtractDir, Event.downloadArchive]
    match env.download with
    | .error _ => ⟨ev1, none, .error .downloadFailed⟩
    | .ok payload =>
      let actual := sha256Hex payload
      if actual ≠ expected then ⟨ev1, none, .error (.integrityMismatch expected actual)⟩
      else
        let ev2 := ev1 ++ [Event.extractArchive]
        if ¬ layoutOk env.archive then ⟨ev2, none, .error .archiveLayout⟩
        else
          let installed := RuntimeImage.installed (entriesUnderPython env.archive)
          let ev3 := ev2 ++ [Event.installCopy]
          match resolveRuntimePython env.isWin32 env.installedIsFile with
          | none => ⟨ev3, some installed, .error .binaryNotFound⟩
          | some _ =>
            let ev4 := ev3 ++ [Event.probeVersion]
            if env.probeVersionRc ≠ 0 then ⟨ev4, some installed, .error (.probeFailed "version")⟩
            else
              let ev5 := ev4 ++ [Event.probeSsl]
              if env.probeSslRc ≠ 0 then ⟨ev5, some installed, .error (.probeFailed "ssl")⟩
              else ⟨ev5, some installed, .ok ()⟩

/-! ### Claim C1 — the integrity gate -/

/-- Failures produced by the resolution phase (before any filesystem
effect): missing configuration, metadata fetch/format failures, asset
lookup and digest availability failures. -/
def isResolutionFailure : PipelineError → Bool
  | .missingEnv _ => true
  | .metadataFetchFailed => true
  | .metadataFormat => true
  | .assetNotFound _ => true
  | .digestUnavailable _ => true
  | _ => false

/-- Failures after the effectful phase starts but before the install
copy: download failure, digest mismatch, archive-layout failure. -/
def isPreInstallFailure : PipelineError → Bool
  | .downloadFailed => true
  | .integrityMismatch _ _ => true
  | .archiveLayout => true
  | _ => false

theorem requireEnv_error_kind (n : String) (v : Option String) (e : PipelineError)
    (h : requireEnv n v = .error e) : e = .missingEnv n := by
  unfold requireEnv at h
  split at h
  · injection h with h1
    exact h1.symm
  · exact Except.noConfusion h

theorem resolveExpectedSha256_error_kind (meta : MetaResult) (assetName : String)
    (e : PipelineError) (h : resolveExpectedSha256 meta assetName = .error e) :
    isResolutionFailure e = true := by
  unfold resolveExpectedSha256 at h
  repeat' split at h
  all_goals first
    | (injection h with h1; subst h1; rfl)
    | exact Except.noConfusion h

theorem phaseResolve_error_kind (env : RuntimeEnv) (e : PipelineError)
    (h : phaseResolve env = .error e) : isResolutionFailure e = true := by
  unfold phaseResolve at h
  repeat' split at h
  all_goals first
    | (injection h with h1; subst h1; rfl)
    | exact Except.noConfusion h
    | (injection h with h1; subst h1;
       rename_i hreq
       rw [requireEnv_error_kind _ _ _ hreq]
       rfl)
    | exact resolveExpectedSha256_error_kind _ _ _ h

/-- C1: for every downloaded archive payload and trusted digest record,
the integrity check accepts exactly when the sha256 hex digest of the
payload's bytes equals the trusted digest (compared case-insensitively):
on a match the run never produces an integrity-mismatch error and
reaches the extraction stage; on a mismatch the run stops with
`integrityMismatch` carrying both the expected and the actual digest,
and neither the extraction nor the installation step is ever performed. -/
theorem integrity_check_accepts_iff_digest_matches
    (env : RuntimeEnv) (trusted : String) (payload : List Nat)
    (hres : phaseResolve env = Except.ok (strLower trusted))
    (hdl : env.download = Except.ok payload) :
    (ciEq (sha256Hex payload) trusted →
      (∀ x y, (runMain env).outcome ≠ Except.error (PipelineError.integrityMismatch x y)) ∧
      Event.extractArchive ∈ (runMain env).events) ∧
    (¬ ciEq (sha256Hex payload) trusted →
      (runMain env).outcome =
        Except.error (PipelineError.integrityMismatch (strLower trusted) (sha256Hex payload)) ∧
      Event.extractArchive ∉ (runMain env).events ∧
      Event.installCopy ∉ (runMain env).events) := by
  have hkey : ciEq (sha256Hex payload) trusted ↔ sha256Hex payload = strLower trusted := by
    unfold ciEq
    rw [strLower_sha256Hex]
  unfold runMain
  rw [hres, hdl]
  by_cases heq : sha256Hex payload = strLower trusted
  · refine ⟨fun _ => ?_, fun hne => absurd (hkey.mpr heq) hne⟩
    simp only [ne_eq, heq, not_true_eq_false, if_false, ite_not, if_pos]
    constructor
    · intro x y
      repeat' split <;> try simp
    · repeat' split <;> try simp
  · refine ⟨fun hacc => absurd (hkey.mp hacc) heq, fun _ => ?_⟩
    simp only [ne_eq, heq, not_false_eq_true, if_true]
    refine ⟨trivial, ?_, ?_⟩ <;>
      · repeat' split <;> try simp

/-- Sixty-four zeros: a well-formed but wrong sha256 hex digest. -/
def zeros64 : String :=
  "0000000000000000000000000000000000000000000000000000000000000000"

/-- A fully-configured environment whose trusted digest is `zeros64`,
whose download succeeds with an empty payload and which carries a prior
installation (id 7) at the target path. -/
def envDigestMismatch : RuntimeEnv where
  runnerTempDirVar := some "/tmp/runner"
  runnerTempVar := none
  releaseVar := some "20250610"
  versionVar := some "3.11.9"
  targetVar := some "x86_64-unknown-linux-gnu"
  metadata := .ok [⟨assetNameOf "3.11.9" "20250610" "x86_64-unknown-linux-gnu",
                    some ("sha256:" ++ zeros64)⟩]
  download := .ok []
  archive := [⟨["python"], true⟩]
  priorInstall := some 7
  extractDirExists := false
  isWin32 := false
  installedIsFile := fun p => p = ["bin", "python3"]
  probeVersionRc := 0
  probeSslRc := 0

set_option maxRecDepth 100000 in
/-- Witness for C1 at a concrete input: the empty payload does not hash
to `zeros64`, so the run aborts with the mismatch error, before
extraction and installation. -/
theorem integrity_check_accepts_iff_digest_matches_witness :
    (runMain envDigestMismatch).outcome =
      Except.error (PipelineError.integrityMismatch (strLower zeros64) (sha256Hex [])) ∧
    Event.extractArchive ∉ (runMain envDigestMismatch).events ∧
    Event.installCopy ∉ (runMain envDigestMismatch).events :=
  (integrity_check_accepts_iff_digest_matches envDigestMismatch zeros64 []
    (by rfl) (by rfl)).2 (by decide)

/-! ### Claim C2 — what the target install directory looks like on failure -/

/-- C2 (amended): a failure of the resolution phase (missing
configuration, metadata fetch/format failure, asset lookup or digest
availability failure) leaves the run without any filesystem event and
the target install directory exactly as it was; but a download failure,
digest mismatch or archive-layout failure leaves the target install
directory absent — the prior installation was already removed before the
download, as witnessed by the `removePriorTarget` event — and the
install copy never ran. -/
theorem preinstall_failure_target_state (env : RuntimeEnv) (e : PipelineError)
    (h : (runMain env).outcome = Except.error e) :
    (isResolutionFailure e = true →
      runMain env = ⟨[], initTarget env, Except.error e⟩) ∧
    (isPreInstallFailure e = true →
      (runMain env).target = none ∧
      Event.installCopy ∉ (runMain env).events ∧
      (env.priorInstall.isSome = true → Event.removePriorTarget ∈ (runMain env).events)) := by
  unfold runMain at h ⊢
  cases hres : phaseResolve env with
  | error e0 =>
    (try rw [hres] at h)
    simp only [] at h
    injection h with h1
    subst h1
    have hk := phaseResolve_error_kind env e0 hres
    refine ⟨fun _ => rfl, fun hpre => ?_⟩
    cases e0 <;> simp_all [isResolutionFailure, isPreInstallFailure]
  | ok expected =>
    cases hdl : env.download with
    | error u =>
      (try rw [hres] at h)
      (try rw [hdl] at h)
      simp only [] at h
      injection h with h1
      subst h1
      refine ⟨fun hres2 => by simp [isResolutionFailure] at hres2, fun _ => ?_⟩
      refine ⟨by trivial, ?_, ?_⟩
      · repeat' split <;> simp
      · intro hp
        simp [hp]
    | ok payload =>
      (try rw [hres] at h)
      (try rw [hdl] at h)
      by_cases hhash : sha256Hex payload = expected
      · simp only [ne_eq, hhash, not_true_eq_false, if_false, ite_not, if_pos] at h ⊢
        by_cases hlay : layoutOk env.archive
        · simp only [hlay, if_true, if_pos] at h ⊢
          cases hbin : resolveRuntimePython env.isWin32 env.installedIsFile with
          | none =>
            (try rw [hbin] at h)
            simp only [] at h
            injection h with h1
            subst h1
            exact ⟨fun hk => by simp [isResolutionFailure] at hk,
                   fun hk => by simp [isPreInstallFailure] at hk⟩
          | some b =>
            (try rw [hbin] at h)
            by_cases hv : env.probeVersionRc = 0
            · simp only [hv, ne_eq, not_true_eq_false, if_false, ite_not, if_pos] at h ⊢
              by_cases hs : env.probeSslRc = 0
              · simp only [hs, ne_eq, not_true_eq_false, if_false, ite_not, if_pos] at h
                exact Except.noConfusion h
              · simp only [hs, ne_eq, not_false_eq_true, if_true] at h
                injection h with h1
                subst h1
                exact ⟨fun hk => by simp [isResolutionFailure] at hk,
                       fun hk => by simp [isPreInstallFailure] at hk⟩
            · simp only [hv, ne_eq, not_false_eq_true, if_true] at h
              injection h with h1
              subst h1
              exact ⟨fun hk => by simp [isResolutionFailure] at hk,
                     fun hk => by simp [isPreInstallFailure] at hk⟩
        · simp only [hlay, if_false, not_false_eq_true, if_true] at h ⊢
          injection h with h1
          subst h1
          refine ⟨fun hk => by simp [isResolutionFailure] at hk, fun _ => ?_⟩
          refine ⟨by trivial, ?_, ?_⟩
          · repeat' split <;> simp_all
          · intro hp
            simp [hp]
      · simp only [ne_eq, hhash, not_false_eq_true, if_true] at h ⊢
        injection h with h1
        subst h1
        refine ⟨fun hk => by simp [isResolutionFailure] at hk, fun _ => ?_⟩
        refine ⟨by trivial, ?_, ?_⟩
        · repeat' split <;> simp_all
        · intro hp
          simp [hp]

/-- The environment of `envDigestMismatch`, except that the download
fails after all retries; a prior installation (id 7) is present. -/
def envDownloadFail : RuntimeEnv :=
  { envDigestMismatch with download := .error () }

/-- Counterexample to C2 as stated: a run that fails at the download
stage — before integrity verification, extraction and installation — yet
the target install directory of the prior successful run is no longer
there: the pipeline removed it before downloading. -/
theorem preinstall_failure_target_state_counterexample :
    (runMain envDownloadFail).outcome = Except.error PipelineError.downloadFailed ∧
    initTarget envDownloadFail = some (RuntimeImage.prior 7) ∧
    (runMain envDownloadFail).target = none ∧
    (runMain envDownloadFail).events =
      [Event.removePriorTarget, Event.mkExtractDir, Event.downloadArchive] :=
  ⟨rfl, rfl, rfl, rfl⟩

/-- Witness for the amended C2 at a concrete input: the download-failure
run has an empty target directory and no install copy, and the prior
installation was removed. -/
theorem preinstall_failure_target_state_witness :
    (runMain envDownloadFail).target = none ∧
    Event.installCopy ∉ (runMain envDownloadFail).events ∧
    (envDownloadFail.priorInstall.isSome = true →
      Event.removePriorTarget ∈ (runMain envDownloadFail).events) :=
  (preinstall_failure_target_state envDownloadFail PipelineError.downloadFailed rfl).2 rfl

/-! ### Claim C7 — staging directory freshness and the layout check -/

/-- C7 (amended): once the digest check passes, the staging directory is
created (after removing a stale one when present) and the extractor
raises the layout error exactly when the extraction result has no
top-level directory named `python`; extra top-level entries next to
`python/` are not rejected, and on a layout error the install copy never
runs. -/
theorem extraction_layout_check (env : RuntimeEnv) (expected : String) (payload : List Nat)
    (hres : phaseResolve env = Except.ok expected)
    (hdl : env.download = Except.ok payload)
    (hhash : sha256Hex payload = expected) :
    Event.mkExtractDir ∈ (runMain env).events ∧
    (env.extractDirExists = true → Event.removeStaleExtract ∈ (runMain env).events) ∧
    ((runMain env).outcome = Except.error PipelineError.archiveLayout ↔
      layoutOk env.archive = false) ∧
    (layoutOk env.archive = false → Event.installCopy ∉ (runMain env).events) := by
  unfold runMain
  rw [hres, hdl]
  simp only [ne_eq, hhash, not_true_eq_false, if_false, ite_not, if_pos]
  by_cases hlay : layoutOk env.archive
  · simp only [hlay, if_true, if_pos]
    refine ⟨?_, fun hx => ?_, ?_, fun hf => by simp [hlay] at hf⟩
    · repeat' split <;>
        (try simp only [apply_ite RunResult.events, apply_ite RunResult.outcome, ite_self]) <;>
        first | simp_all | simp | trivial
    · repeat' split <;>
        (try simp only [apply_ite RunResult.events, apply_ite RunResult.outcome, ite_self]) <;>
        first | simp_all | simp [hx] | trivial
    · constructor
      · intro hc
        exfalso
        revert hc
        repeat' split <;>
          (try simp only [apply_ite RunResult.events, apply_ite RunResult.outcome, ite_self]) <;>
          first | simp_all [ite_eq_iff] | simp [ite_eq_iff] | trivial
      · intro hc
        exact absurd hc (by simp [hlay])
  · simp only [hlay, if_false, not_false_eq_true, if_true]
    refine ⟨?_, fun hx => ?_, ?_, fun _ => ?_⟩
    · repeat' split <;>
        (try simp only [apply_ite RunResult.events, apply_ite RunResult.outcome, ite_self]) <;>
        first | simp_all | simp | trivial
    · repeat' split <;>
        (try simp only [apply_ite RunResult.events, apply_ite RunResult.outcome, ite_self]) <;>
        first | simp_all | simp [hx] | trivial
    · simp [hlay]
    · repeat' split <;>
        (try simp only [apply_ite RunResult.events, apply_ite RunResult.outcome, ite_self]) <;>
        first | simp_all | simp | trivial

/-- An environment whose archive extracts to two top-level directories,
`python/` and `extra/`, with a correct trusted digest for the empty
payload, and a stale staging directory present. -/
def envExtraTopLevel : RuntimeEnv :=
  { envDigestMismatch with
    metadata := .ok [⟨assetNameOf "3.11.9" "20250610" "x86_64-unknown-linux-gnu",
                      some ("sha256:" ++ sha256Hex [])⟩]
    archive := [⟨["python"], true⟩, ⟨["extra"], true⟩]
    extractDirExists := true }

set_option maxRecDepth 100000 in
/-- Counterexample to C7 as stated: an extraction result that is *not* a
single top-level `python` directory (there is a second top-level
directory `extra/`) does not raise the layout error — the run completes
successfully, because the source only checks that `extract_root/python`
is a directory. -/
theorem extraction_layout_check_counterexample :
    (runMain envExtraTopLevel).outcome = Except.ok () ∧
    envExtraTopLevel.archive = [⟨["python"], true⟩, ⟨["extra"], true⟩] :=
  ⟨rfl, rfl⟩

set_option maxRecDepth 100000 in
/-- Witness for the amended C7 at a concrete input: the staging steps
run, and the two-top-level-directory layout is accepted. -/
theorem extraction_layout_check_witness :
    Event.mkExtractDir ∈ (runMain envExtraTopLevel).events ∧
    Event.removeStaleExtract ∈ (runMain envExtraTopLevel).events ∧
    ¬ (runMain envExtraTopLevel).outcome = Except.error PipelineError.archiveLayout := by
  have h := extraction_layout_check envExtraTopLevel (sha256Hex []) [] (by rfl) rfl rfl
  refine ⟨h.1, h.2.1 rfl, fun hc => ?_⟩
  have hf := h.2.2.1.mp hc
  exact absurd hf (by decide)

/-! ### Manifest synthesis pipeline
(`src/scripts/ci/generate-updater-manifest.py`)

Artifacts are paths (a directory component list plus a file name); the
signature files on disk are an explicit lookup table.  `re.search` with
`re.IGNORECASE` over the three fixed patterns is embedded as a
substring-decomposition search on the lowercased character list, with
Python's leftmost-start / greedy-`.*` choice of match (the dot of `.*`
never meets a newline in a file name). -/

structure ArtifactPath where
  dir : List String
  fname : String
deriving DecidableEq, Repr

/-- Embedding of `pathlib.PurePath.suffix`: the substring from the last dot, when that
dot is neither the first nor the last character of the name. -/
def pySuffix (name : String) : String :=
  let cs := name.toList
  match ((List.range cs.length).filter (fun i => cs.getD i ' ' = '.')).getLast? with
  | some i => if 0 < i ∧ i < cs.length - 1 then String.mk (cs.drop i) else ""
  | none => ""

/-- Embedding of `artifact.parent / f"{artifact.name}.sig"`. -/
def sigPathOf (a : ArtifactPath) : ArtifactPath := ⟨a.dir, a.fname ++ ".sig"⟩

/-- The signature files present on disk, with their contents. -/
structure SigFS where
  files : List (ArtifactPath × String)

def fsRead (fs : SigFS) (p : ArtifactPath) : Option String :=
  (fs.files.find? (fun e => e.1 = p)).map (·.2)

/-- Embedding of `read_signature_file`: `FileNotFoundError` when the signature file
does not exist, otherwise the file's text with surrounding whitespace
stripped. -/
def read_signature_file (fs : SigFS) (p : ArtifactPath) : Except Unit String :=
  match fsRead fs p with
  | none => .error ()
  | some c => .ok (pyStrip c)

/-- Does one of the alternation's arms, followed by the literal tail of
the pattern, start at this position? (At most one arm can.) -/
def archAt (archs : List String) (sfx : List Char) (s : List Char) : Option String :=
  archs.find? (fun a => (a.toList ++ sfx).isPrefixOf s)

/-- Tests whether `mid ++ (arch) ++ sfx` matches at the head of `s`. -/
def patHere (mid : List Char) (archs : List String) (sfx : List Char) (s : List Char) :
    Option String :=
  if mid.isPrefixOf s then archAt archs sfx (s.drop mid.length) else none

/-- The arm captured at the *rightmost* position of `s` where
`mid ++ (arch) ++ sfx` matches — the choice a greedy `.*` makes. -/
def lastPatMatch (mid : List Char) (archs : List String) (sfx : List Char) :
    List Char → Option String
  | [] => patHere mid archs sfx []
  | c :: rest =>
    match lastPatMatch mid archs sfx rest with
    | some a => some a
    | none => patHere mid archs sfx (c :: rest)

/-- Embedding of `re.search` for `astrbot_.*mid(arch₁|…)sfx` on a lowercased string:
the leftmost position where `astrbot_` matches and the remainder admits
the rest of the pattern wins, and within it `.*` is greedy. -/
def searchAstrBotPat (mid : List Char) (archs : List String) (sfx : List Char) :
    List Char → Option String
  | [] => none
  | c :: rest =>
    if "astrbot_".toList.isPrefixOf (c :: rest) then
      match lastPatMatch mid archs sfx ((c :: rest).drop 8) with
      | some a => some a
      | none => searchAstrBotPat mid archs sfx rest
    else searchAstrBotPat mid archs sfx rest

/-- The architecture normalization map of `extract_platform_info`. -/
def archMap : List (String × String) :=
  [("x86_64", "x86_64"), ("aarch64", "aarch64"), ("armv7", "armv7"),
   ("universal", "universal")]

/-- Embedding of `arch_map.get(arch, arch)`: tokens absent from the map pass through
unchanged. -/
def normalizeArch (arch : String) : String :=
  ((archMap.find? (fun p => p.1 = arch)).map (·.2)).getD arch

/-- Embedding of `extract_platform_info`: the ordered table of
`(regex, platform_os)` pairs, first match wins, captured architecture
token lowercased and passed through the normalization map. -/
def extract_platform_info (filename : String) : Option (String × String) :=
  let l := (strLower filename).toList
  match searchAstrBotPat "_windows_".toList ["x86_64", "aarch64", "armv7"]
      "_updater.zip".toList l with
  | some arch => some ("windows", normalizeArch (strLower arch))
  | none =>
    match searchAstrBotPat "_linux_".toList ["x86_64", "aarch64", "armv7"]
        "_updater.tar.gz".toList l with
    | some arch => some ("linux", normalizeArch (strLower arch))
    | none =>
      match searchAstrBotPat "_macos_".toList ["x86_64", "aarch64", "universal"]
          "_updater.tar.gz".toList l with
      | some arch => some ("darwin", normalizeArch (strLower arch))
      | none => none

def strEndsWith (s sfx : String) : Bool := sfx.toList.isSuffixOf s.toList

/-- Embedding of `find_updater_artifacts`: for each glob pattern in order, the files
whose name matches it (`**/*X` matches exactly the names ending in `X`,
and no name can match two of these four patterns). -/
def find_updater_artifacts (files : List ArtifactPath) : List ArtifactPath :=
  ["_updater.zip", "_updater.zip.sig", "_updater.tar.gz", "_updater.tar.gz.sig"].flatMap
    (fun sfx => files.filter (fun f => strEndsWith f.fname sfx))

structure ManifestEntry where
  signature : String
  url : String
deriving DecidableEq, Repr

/-- The manifest document; `platforms` is a Python dict, modelled as a
key-value list with dict insertion order. -/
structure Manifest where
  version : String
  notes : String
  pub_date : String
  platforms : List (String × ManifestEntry)
deriving DecidableEq, Repr

/-- One step of the first loop of `generate_manifest`: skip signature
files, warn about unclassifiable names, store classified bundles under
their platform key (a repeated key silently overwrites the stored
bundle). -/
def bamStep (acc : List (String × (ArtifactPath × ArtifactPath)) × List String)
    (artifact : ArtifactPath) :
    List (String × (ArtifactPath × ArtifactPath)) × List String :=
  if pySuffix artifact.fname = ".sig" then acc
  else
    match extract_platform_info artifact.fname with
    | none =>
      (acc.1, acc.2 ++ ["Warning: Could not extract platform info from " ++ artifact.fname])
    | some info =>
      (dictInsert (info.1 ++ "-" ++ info.2) (artifact, sigPathOf artifact) acc.1, acc.2)

/-- First loop of `generate_manifest`: group non-signature artifacts by
platform key. Returns the artifact map (key ↦ bundle path × expected
signature path) and the warnings printed. -/
def buildArtifactMap (artifacts : List ArtifactPath) :
    List (String × (ArtifactPath × ArtifactPath)) × List String :=
  artifacts.foldl bamStep ([], [])

def baseUrlOf (repository releaseTag : String) : String :=
  "https://github.com/" ++ repository ++ "/releases/download/" ++ releaseTag

/-- Second loop of `generate_manifest`: read each grouped bundle's
signature file, warning about (and dropping) bundles whose signature
file is missing; survivors get a manifest entry with the download URL
`{base}/{bundle_filename}`. -/
def bpStep (fs : SigFS) (baseUrl : String)
    (acc : List (String × ManifestEntry) × List String)
    (kv : String × (ArtifactPath × ArtifactPath)) :
    List (String × ManifestEntry) × List String :=
  match read_signature_file fs kv.2.2 with
  | .error _ =>
    (acc.1, acc.2 ++ ["Warning: Signature not found for " ++ kv.2.1.fname])
  | .ok signature =>
    (dictInsert kv.1 ⟨signature, baseUrl ++ "/" ++ kv.2.1.fname⟩ acc.1, acc.2)

def buildPlatforms (fs : SigFS) (baseUrl : String)
    (am : List (String × (ArtifactPath × ArtifactPath))) :
    List (String × ManifestEntry) × List String :=
  am.foldl (bpStep fs baseUrl) ([], [])

/-- Embedding of `generate_manifest`. `now` is the formatted
`datetime.now(timezone.utc)` timestamp (explicit state passing for the
clock); the second component is the list of warnings printed to stderr.
The `strict_version_match` flag is accepted, as in the source. -/
def generate_manifest (artifacts : List ArtifactPath) (version releaseTag repository : String)
    (strict_version_match : Bool) (now : String) (fs : SigFS) : Manifest × List String :=
  let am := buildArtifactMap artifacts
  let pl := buildPlatforms fs (baseUrlOf repository releaseTag) am.1
  (⟨version, "Release " ++ releaseTag, now, pl.1⟩, am.2 ++ pl.2)

/-- Outcome of the generator's `main`: exit 1 when the artifact root
does not exist, otherwise the manifest written to the output file and
the warnings printed. -/
inductive GenResult
  | rootMissing
  | ok (manifest : Manifest) (warnings : List String)
deriving DecidableEq, Repr

/-- Embedding of `main` of `generate-updater-manifest.py`: check the root, scan for
updater artifacts, emit an empty manifest when none are found, else
build the manifest from the scanned artifacts. -/
def generateMain (rootExists : Bool) (files : List ArtifactPath)
    (version releaseTag repository : String) (strict : Bool) (now : String)
    (fs : SigFS) : GenResult :=
  if ¬rootExists then .rootMissing
  else
    let arts := find_updater_artifacts files
    if arts.isEmpty then
      .ok ⟨version, "Release " ++ releaseTag, now, []⟩ ["Warning: No updater artifacts found"]
    else
      let r := generate_manifest arts version releaseTag repository strict now fs
      .ok r.1 r.2

/-! ### Claim C6 — platform classification -/

theorem archAt_mem (archs : List String) (sfx : List Char) (s : List Char) (a : String)
    (h : archAt archs sfx s = some a) : a ∈ archs :=
  List.mem_of_find?_eq_some h

theorem patHere_mem (mid : List Char) (archs : List String) (sfx : List Char) (s : List Char)
    (a : String) (h : patHere mid archs sfx s = some a) : a ∈ archs := by
  unfold patHere at h
  split at h
  · exact archAt_mem _ _ _ _ h
  · exact Option.noConfusion h

theorem lastPatMatch_mem (mid : List Char) (archs : List String) (sfx : List Char)
    (s : List Char) (a : String) (h : lastPatMatch mid archs sfx s = some a) : a ∈ archs := by
  induction s with
  | nil => exact patHere_mem _ _ _ _ _ h
  | cons c rest ih =>
    unfold lastPatMatch at h
    split at h
    · rename_i heq
      injection h with h1
      subst h1
      exact ih heq
    · exact patHere_mem _ _ _ _ _ h

theorem searchAstrBotPat_mem (mid : List Char) (archs : List String) (sfx : List Char)
    (s : List Char) (a : String) (h : searchAstrBotPat mid archs sfx s = some a) : a ∈ archs := by
  induction s with
  | nil => exact Option.noConfusion h
  | cons c rest ih =>
    unfold searchAstrBotPat at h
    split at h
    · split at h
      · rename_i heq
        injection h with h1
        subst h1
        exact lastPatMatch_mem _ _ _ _ _ heq
      · exact ih h
    · exact ih h

/-- C6: platform classification is a pure function of the file name:
the three example names classify as the spec states; the first matching
pattern in the ordered table wins (a windows match decides the result no
matter what the later patterns would say, and the linux pattern is only
consulted when the windows pattern fails); the captured architecture
token is lowercased (every architecture the classifier emits is a fixed
point of lowercasing); and architecture tokens absent from the
normalization map pass through it unchanged. -/
theorem platform_classification :
    extract_platform_info "AstrBot_4.19.0_windows_x86_64_updater.zip" =
      some ("windows", "x86_64") ∧
    extract_platform_info "AstrBot_4.19.0_macos_universal_updater.tar.gz" =
      some ("darwin", "universal") ∧
    extract_platform_info "random.bin" = none ∧
    (∀ name arch,
      searchAstrBotPat "_windows_".toList ["x86_64", "aarch64", "armv7"]
        "_updater.zip".toList (strLower name).toList = some arch →
      extract_platform_info name = some ("windows", normalizeArch (strLower arch))) ∧
    (∀ name arch,
      searchAstrBotPat "_windows_".toList ["x86_64", "aarch64", "armv7"]
        "_updater.zip".toList (strLower name).toList = none →
      searchAstrBotPat "_linux_".toList ["x86_64", "aarch64", "armv7"]
        "_updater.tar.gz".toList (strLower name).toList = some arch →
      extract_platform_info name = some ("linux", normalizeArch (strLower arch))) ∧
    (∀ name osName arch, extract_platform_info name = some (osName, arch) →
      strLower arch = arch) ∧
    (∀ a, archMap.find? (fun p => p.1 = a) = none → normalizeArch a = a) := by
  refine ⟨by decide, by decide, by decide, ?_, ?_, ?_, ?_⟩
  · intro name arch h
    simp only [extract_platform_info]
    rw [h]
  · intro name arch hw hl
    simp only [extract_platform_info]
    rw [hw, hl]
  · intro name osName arch h
    simp only [extract_platform_info] at h
    split at h
    · rename_i a heq
      have hm := searchAstrBotPat_mem _ _ _ _ _ heq
      injection h with h1
      have h2 := congrArg Prod.snd h1
      simp only [] at h2
      subst h2
      simp only [List.mem_cons, List.not_mem_nil, or_false] at hm
      rcases hm with rfl | rfl | rfl <;> decide
    · split at h
      · rename_i a heq
        have hm := searchAstrBotPat_mem _ _ _ _ _ heq
        injection h with h1
        have h2 := congrArg Prod.snd h1
        simp only [] at h2
        subst h2
        simp only [List.mem_cons, List.not_mem_nil, or_false] at hm
        rcases hm with rfl | rfl | rfl <;> decide
      · split at h
        · rename_i a heq
          have hm := searchAstrBotPat_mem _ _ _ _ _ heq
          injection h with h1
          have h2 := congrArg Prod.snd h1
          simp only [] at h2
          subst h2
          simp only [List.mem_cons, List.not_mem_nil, or_false] at hm
          rcases hm with rfl | rfl | rfl <;> decide
        · exact Option.noConfusion h
  · intro a h
    unfold normalizeArch
    rw [h]
    rfl

set_option maxRecDepth 10000 in
/-- Witness for C6 at a concrete input: a name that contains both a
linux-pattern and a windows-pattern occurrence classifies as windows,
because the windows pattern comes first in the table. -/
theorem platform_classification_witness :
    extract_platform_info "AstrBot_1_linux_x86_64_updater.tar.gz_windows_aarch64_updater.zip" =
      some ("windows", normalizeArch (strLower "aarch64")) :=
  platform_classification.2.2.2.1
    "AstrBot_1_linux_x86_64_updater.tar.gz_windows_aarch64_updater.zip" "aarch64" (by decide)

/-! ### Claim C5 — the manifest round-trip example -/

set_option maxRecDepth 10000 in
/-- Counterexample to C5 as stated: the artifact set `{A.zip, A.zip.sig}`
yields a manifest with *no* platform entry at all — `A.zip` matches none
of the classification patterns (and none of the scanner's glob
patterns), so both the manifest builder called on the artifact list and
the whole program produce an empty `platforms` map. -/
theorem manifest_roundtrip_counterexample :
    (generate_manifest [⟨[], "A.zip"⟩, ⟨[], "A.zip.sig"⟩] "1.0.0" "v1.0.0" "org/repo"
        false "2026-01-01T00:00:00Z" ⟨[(⟨[], "A.zip.sig"⟩, "SIGDATA\n")]⟩).1.platforms = [] ∧
    generateMain true [⟨[], "A.zip"⟩, ⟨[], "A.zip.sig"⟩] "1.0.0" "v1.0.0" "org/repo"
        false "2026-01-01T00:00:00Z" ⟨[(⟨[], "A.zip.sig"⟩, "SIGDATA\n")]⟩ =
      .ok ⟨"1.0.0", "Release v1.0.0", "2026-01-01T00:00:00Z", []⟩
        ["Warning: No updater artifacts found"] :=
  ⟨rfl, rfl⟩

set_option maxRecDepth 10000 in
/-- C5 (amended): with a bundle name that follows the classification
convention — `AstrBot_1.0.0_windows_x86_64_updater.zip` together with
its `.sig` — the manifest for release `v1.0.0`, version `1.0.0`,
repository `org/repo` holds exactly one platform entry, whose `url` is
`https://github.com/org/repo/releases/download/v1.0.0/AstrBot_1.0.0_windows_x86_64_updater.zip`
and whose `signature` is the trimmed contents of the `.sig` file. -/
theorem manifest_roundtrip :
    generateMain true
      [⟨[], "AstrBot_1.0.0_windows_x86_64_updater.zip"⟩,
       ⟨[], "AstrBot_1.0.0_windows_x86_64_updater.zip.sig"⟩]
      "1.0.0" "v1.0.0" "org/repo" false "2026-01-01T00:00:00Z"
      ⟨[(⟨[], "AstrBot_1.0.0_windows_x86_64_updater.zip.sig"⟩, " sig-content \n")]⟩ =
    .ok ⟨"1.0.0", "Release v1.0.0", "2026-01-01T00:00:00Z",
        [("windows-x86_64",
          ⟨"sig-content",
           "https://github.com/org/repo/releases/download/v1.0.0/AstrBot_1.0.0_windows_x86_64_updater.zip"⟩)]⟩
      [] := by
  decide

/-! ### Claim C8 — silent overwrite on duplicate platform key -/

/-- C8: when two distinct classified bundles normalize to the same
platform key, the bundle scanned later silently overwrites the earlier
one: the final manifest holds exactly one entry for that key, built
from the last-scanned bundle (its signature and its URL), and the run
emits no warning at all. -/
theorem duplicate_key_last_wins (b1 b2 : ArtifactPath) (k : String)
    (version tag repo : String) (strict : Bool) (now : String) (fs : SigFS) (s2 : String)
    (hne : b1 ≠ b2)
    (h1 : ¬ pySuffix b1.fname = ".sig") (h2 : ¬ pySuffix b2.fname = ".sig")
    (e1 e2 : String × String)
    (hc1 : extract_platform_info b1.fname = some e1)
    (hc2 : extract_platform_info b2.fname = some e2)
    (hk1 : e1.1 ++ "-" ++ e1.2 = k) (hk2 : e2.1 ++ "-" ++ e2.2 = k)
    (hsig : fsRead fs (sigPathOf b2) = some s2) :
    (generate_manifest [b1, b2] version tag repo strict now fs).1.platforms =
      [(k, ⟨pyStrip s2, baseUrlOf repo tag ++ "/" ++ b2.fname⟩)] ∧
    (generate_manifest [b1, b2] version tag repo strict now fs).2 = [] := by
  have ham : buildArtifactMap [b1, b2] = ([(k, (b2, sigPathOf b2))], []) := by
    unfold buildArtifactMap
    simp only [List.foldl_cons, List.foldl_nil, bamStep, h1, h2, if_neg, hc1, hc2]
    rw [hk1, hk2]
    simp [dictInsert]
  have hbp : buildPlatforms fs (baseUrlOf repo tag) [(k, (b2, sigPathOf b2))] =
      ([(k, ⟨pyStrip s2, baseUrlOf repo tag ++ "/" ++ b2.fname⟩)], []) := by
    unfold buildPlatforms
    simp only [List.foldl_cons, List.foldl_nil, bpStep, read_signature_file, hsig]
    rfl
  unfold generate_manifest
  rw [ham]
  simp only []
  rw [hbp]
  exact ⟨rfl, rfl⟩

set_option maxRecDepth 10000 in
/-- Witness for C8 at concrete inputs: two distinct windows bundles from
different build jobs collapse to the key `windows-x86_64`; the second
one wins and no warning is emitted. -/
theorem duplicate_key_last_wins_witness :
    (generate_manifest
        [⟨["job-a"], "AstrBot_1.0.0_windows_x86_64_updater.zip"⟩,
         ⟨["job-b"], "AstrBot_2.0.0_windows_x86_64_updater.zip"⟩]
        "2.0.0" "v2.0.0" "org/repo" false "2026-01-01T00:00:00Z"
        ⟨[(⟨["job-b"], "AstrBot_2.0.0_windows_x86_64_updater.zip.sig"⟩, "sig-b")]⟩).1.platforms =
      [("windows-x86_64",
        ⟨pyStrip "sig-b",
         baseUrlOf "org/repo" "v2.0.0" ++ "/" ++ "AstrBot_2.0.0_windows_x86_64_updater.zip"⟩)] ∧
    (generate_manifest
        [⟨["job-a"], "AstrBot_1.0.0_windows_x86_64_updater.zip"⟩,
         ⟨["job-b"], "AstrBot_2.0.0_windows_x86_64_updater.zip"⟩]
        "2.0.0" "v2.0.0" "org/repo" false "2026-01-01T00:00:00Z"
        ⟨[(⟨["job-b"], "AstrBot_2.0.0_windows_x86_64_updater.zip.sig"⟩, "sig-b")]⟩).2 = [] :=
  duplicate_key_last_wins
    ⟨["job-a"], "AstrBot_1.0.0_windows_x86_64_updater.zip"⟩
    ⟨["job-b"], "AstrBot_2.0.0_windows_x86_64_updater.zip"⟩
    "windows-x86_64" "2.0.0" "v2.0.0" "org/repo" false "2026-01-01T00:00:00Z"
    ⟨[(⟨["job-b"], "AstrBot_2.0.0_windows_x86_64_updater.zip.sig"⟩, "sig-b")]⟩ "sig-b"
    (by decide) (by decide) (by decide)
    ("windows", "x86_64") ("windows", "x86_64")
    (by decide) (by decide) (by decide) (by decide) (by decide)

/-! ### Claim C10 — the unused `--strict-version-match` flag -/

/-- C10: the manifest produced with `--strict-version-match` enabled is
identical — same classification, pairing, platforms map and warnings —
to the manifest produced with the flag disabled, both for
`generate_manifest` itself and for the whole program: the flag is
accepted and passed to the builder but never consulted. -/
theorem strict_version_match_no_effect
    (artifacts : List ArtifactPath) (version tag repo now : String) (fs : SigFS) :
    generate_manifest artifacts version tag repo true now fs =
      generate_manifest artifacts version tag repo false now fs ∧
    ∀ (rootExists : Bool) (files : List ArtifactPath),
      generateMain rootExists files version tag repo true now fs =
        generateMain rootExists files version tag repo false now fs :=
  ⟨rfl, fun _ _ => rfl⟩

/-! ### Claim C4 — the pairing invariant of the platforms map -/

theorem dictInsert_mem {β : Type} (k : String) (v : β) (l : List (String × β))
    (kv : String × β) (h : kv ∈ dictInsert k v l) : kv = (k, v) ∨ kv ∈ l := by
  induction l with
  | nil =>
    simp [dictInsert] at h
    exact Or.inl h
  | cons hd tl ih =>
    unfold dictInsert at h
    split at h
    · rcases List.mem_cons.mp h with h1 | h1
      · rename_i heq
        exact Or.inl (by rw [h1, heq])
      · exact Or.inr (List.mem_cons_of_mem _ h1)
    · rcases List.mem_cons.mp h with h1 | h1
      · exact Or.inr (h1 ▸ List.mem_cons_self _ _)
      · rcases ih h1 with h2 | h2
        · exact Or.inl h2
        · exact Or.inr (List.mem_cons_of_mem _ h2)

theorem dictInsert_keys_sub {β : Type} (k : String) (v : β) (l : List (String × β))
    (a : String) (h : a ∈ (dictInsert k v l).map Prod.fst) :
    a = k ∨ a ∈ l.map Prod.fst := by
  rcases List.mem_map.mp h with ⟨kv, hkv, hfst⟩
  rcases dictInsert_mem k v l kv hkv with h1 | h1
  · exact Or.inl (by rw [← hfst, h1])
  · exact Or.inr (List.mem_map.mpr ⟨kv, h1, hfst⟩)

theorem dictInsert_keys_nodup {β : Type} (k : String) (v : β) (l : List (String × β))
    (h : (l.map Prod.fst).Nodup) : ((dictInsert k v l).map Prod.fst).Nodup := by
  induction l with
  | nil => simp [dictInsert]
  | cons hd tl ih =>
    unfold dictInsert
    split
    · simpa using h
    · rename_i hne
      simp only [List.map_cons, List.nodup_cons] at h ⊢
      refine ⟨fun hc => ?_, ih h.2⟩
      rcases dictInsert_keys_sub k v tl hd.1 hc with h1 | h1
      · exact hne h1
      · exact h.1 h1

/-- What is true of every entry of the artifact map. -/
def bamGood (kv : String × (ArtifactPath × ArtifactPath)) : Prop :=
  ¬ pySuffix kv.2.1.fname = ".sig" ∧ kv.2.2 = sigPathOf kv.2.1 ∧
  ∃ info, extract_platform_info kv.2.1.fname = some info ∧ kv.1 = info.1 ++ "-" ++ info.2

theorem bam_fold_good (arts : List ArtifactPath)
    (acc : List (String × (ArtifactPath × ArtifactPath)) × List String)
    (hacc : ∀ kv ∈ acc.1, bamGood kv) :
    ∀ kv ∈ (arts.foldl bamStep acc).1, bamGood kv := by
  induction arts generalizing acc with
  | nil => exact hacc
  | cons a rest ih =>
    rw [List.foldl_cons]
    refine ih _ ?_
    intro kv hkv
    unfold bamStep at hkv
    split at hkv
    · exact hacc kv hkv
    · split at hkv
      · exact hacc kv hkv
      · rename_i hsfx x1 info heq
        rcases dictInsert_mem _ _ _ _ hkv with h1 | h1
        · subst h1
          exact ⟨hsfx, rfl, info, heq, rfl⟩
        · exact hacc kv h1

theorem bam_fold_keys_nodup (arts : List ArtifactPath)
    (acc : List (String × (ArtifactPath × ArtifactPath)) × List String)
    (hacc : (acc.1.map Prod.fst).Nodup) :
    (((arts.foldl bamStep acc).1).map Prod.fst).Nodup := by
  induction arts generalizing acc with
  | nil => exact hacc
  | cons a rest ih =>
    rw [List.foldl_cons]
    refine ih _ ?_
    unfold bamStep
    split
    · exact hacc
    · split
      · exact hacc
      · exact dictInsert_keys_nodup _ _ _ hacc

theorem bp_fold_mem (fs : SigFS) (baseUrl : String)
    (am : List (String × (ArtifactPath × ArtifactPath)))
    (acc : List (String × ManifestEntry) × List String)
    (kv : String × ManifestEntry)
    (h : kv ∈ (am.foldl (bpStep fs baseUrl) acc).1) :
    kv ∈ acc.1 ∨
    ∃ b sp s, (kv.1, (b, sp)) ∈ am ∧ fsRead fs sp = some s ∧
      kv.2 = ⟨pyStrip s, baseUrl ++ "/" ++ b.fname⟩ := by
  induction am generalizing acc with
  | nil => exact Or.inl h
  | cons hd rest ih =>
    rw [List.foldl_cons] at h
    rcases ih _ h with h1 | h1
    · unfold bpStep at h1
      split at h1
      · exact Or.inl h1
      · rename_i sigv heq
        rcases dictInsert_mem _ _ _ _ h1 with h2 | h2
        · unfold read_signature_file at heq
          split at heq
          · exact Except.noConfusion heq
          · rename_i c hread
            injection heq with heq1
            refine Or.inr ⟨hd.2.1, hd.2.2, c, ?_, hread, ?_⟩
            · rw [show kv.1 = hd.1 from congrArg Prod.fst h2]
              exact List.mem_cons_self _ _
            · rw [show kv.2 = ⟨sigv, baseUrl ++ "/" ++ hd.2.1.fname⟩ from congrArg Prod.snd h2]
              rw [← heq1]
        · exact Or.inl h2
    · rcases h1 with ⟨b, sp, s, hmem, hread, hentry⟩
      exact Or.inr ⟨b, sp, s, List.mem_cons_of_mem _ hmem, hread, hentry⟩

theorem bp_fold_warnings_grow (fs : SigFS) (baseUrl : String)
    (am : List (String × (ArtifactPath × ArtifactPath)))
    (acc : List (String × ManifestEntry) × List String)
    (w : String) (h : w ∈ acc.2) :
    w ∈ (am.foldl (bpStep fs baseUrl) acc).2 := by
  induction am generalizing acc with
  | nil => exact h
  | cons hd rest ih =>
    rw [List.foldl_cons]
    refine ih _ ?_
    unfold bpStep
    split
    · exact List.mem_append_left _ h
    · exact h

theorem dictInsert_not_mem_of_ne {β : Type} (k k0 : String) (v : β) (l : List (String × β))
    (hne : ¬ k = k0) (hl : ∀ e, (k, e) ∉ l) : ∀ e, (k, e) ∉ dictInsert k0 v l := by
  intro e hmem
  rcases dictInsert_mem _ _ _ _ hmem with h1 | h1
  · exact hne (congrArg Prod.fst h1)
  · exact hl e h1

theorem bp_fold_key_absent (fs : SigFS) (baseUrl : String)
    (am : List (String × (ArtifactPath × ArtifactPath))) (k : String) :
    ∀ acc : List (String × ManifestEntry) × List String,
      k ∉ am.map Prod.fst → (∀ e, (k, e) ∉ acc.1) →
      ∀ e, (k, e) ∉ (am.foldl (bpStep fs baseUrl) acc).1 := by
  induction am with
  | nil =>
    intro acc _ hacc
    exact hacc
  | cons hd rest ih =>
    intro acc hk hacc
    rw [List.foldl_cons]
    simp only [List.map_cons, List.mem_cons, not_or] at hk
    refine ih _ hk.2 ?_
    unfold bpStep
    split
    · exact hacc
    · exact dictInsert_not_mem_of_ne _ _ _ _ hk.1 hacc

theorem bp_fold_missing_sig (fs : SigFS) (baseUrl : String)
    (am : List (String × (ArtifactPath × ArtifactPath)))
    (k : String) (b : ArtifactPath) (sp : ArtifactPath) :
    ∀ acc : List (String × ManifestEntry) × List String,
      (k, (b, sp)) ∈ am → fsRead fs sp = none →
      (am.map Prod.fst).Nodup → (∀ e, (k, e) ∉ acc.1) →
      (∀ e, (k, e) ∉ (am.foldl (bpStep fs baseUrl) acc).1) ∧
      ("Warning: Signature not found for " ++ b.fname) ∈ (am.foldl (bpStep fs baseUrl) acc).2 := by
  induction am with
  | nil =>
    intro acc hmem _ _ _
    exact absurd hmem (List.not_mem_nil _)
  | cons hd rest ih =>
    intro acc hmem hnone hnodup hacc
    rw [List.foldl_cons]
    simp only [List.map_cons, List.nodup_cons] at hnodup
    rcases List.mem_cons.mp hmem with h1 | h1
    · subst h1
      have hstep : bpStep fs baseUrl acc (k, (b, sp)) =
          (acc.1, acc.2 ++ ["Warning: Signature not found for " ++ b.fname]) := by
        unfold bpStep read_signature_file
        rw [hnone]
      rw [hstep]
      have hkabs : k ∉ rest.map Prod.fst := by simpa using hnodup.1
      constructor
      · exact bp_fold_key_absent fs baseUrl rest k _ hkabs hacc
      · exact bp_fold_warnings_grow fs baseUrl rest _ _
          (List.mem_append_right _ (List.mem_singleton_self _))
    · have hne : ¬ k = hd.1 := by
        intro hk
        apply hnodup.1
        rw [← hk]
        exact List.mem_map.mpr ⟨(k, (b, sp)), h1, rfl⟩
      refine ih _ h1 hnone hnodup.2 ?_
      unfold bpStep
      split
      · exact hacc
      · exact dictInsert_not_mem_of_ne _ _ _ _ hne hacc

theorem bp_fold_keys_nodup (fs : SigFS) (baseUrl : String)
    (am : List (String × (ArtifactPath × ArtifactPath))) :
    ∀ acc : List (String × ManifestEntry) × List String,
      (acc.1.map Prod.fst).Nodup →
      (((am.foldl (bpStep fs baseUrl) acc).1).map Prod.fst).Nodup := by
  induction am with
  | nil =>
    intro acc hacc
    exact hacc
  | cons hd rest ih =>
    intro acc hacc
    rw [List.foldl_cons]
    refine ih _ ?_
    unfold bpStep
    split
    · exact hacc
    · exact dictInsert_keys_nodup _ _ _ hacc

/-- C4: in every generated manifest, the keys of `platforms` are
pairwise distinct and every entry `(k, e)` comes from the (unique)
classified bundle stored under `k` in the artifact map, whose colocated
signature file `<bundle-filename>.sig` exists on disk and whose trimmed
contents is `e.signature`; a grouped bundle whose signature file is
missing contributes no entry under its key at all — it is dropped with a
warning, never stored as a null value (entries are total
signature/url records by construction). -/
theorem platforms_pairing_invariant
    (artifacts : List ArtifactPath) (version tag repo : String) (strict : Bool)
    (now : String) (fs : SigFS) :
    (((generate_manifest artifacts version tag repo strict now fs).1.platforms).map
      Prod.fst).Nodup ∧
    (∀ k e, (k, e) ∈ (generate_manifest artifacts version tag repo strict now fs).1.platforms →
      ∃ b s, (k, (b, sigPathOf b)) ∈ (buildArtifactMap artifacts).1 ∧
        ¬ pySuffix b.fname = ".sig" ∧
        (∃ info, extract_platform_info b.fname = some info ∧ k = info.1 ++ "-" ++ info.2) ∧
        fsRead fs (sigPathOf b) = some s ∧
        e = ⟨pyStrip s, baseUrlOf repo tag ++ "/" ++ b.fname⟩) ∧
    (∀ k b sp, (k, (b, sp)) ∈ (buildArtifactMap artifacts).1 → fsRead fs sp = none →
      (∀ e, (k, e) ∉ (generate_manifest artifacts version tag repo strict now fs).1.platforms) ∧
      ("Warning: Signature not found for " ++ b.fname) ∈
        (generate_manifest artifacts version tag repo strict now fs).2) := by
  have hnodupam : (((buildArtifactMap artifacts).1).map Prod.fst).Nodup :=
    bam_fold_keys_nodup artifacts ([], []) (by simp)
  have hplat : (generate_manifest artifacts version tag repo strict now fs).1.platforms =
      (buildPlatforms fs (baseUrlOf repo tag) (buildArtifactMap artifacts).1).1 := rfl
  have hwarn : (generate_manifest artifacts version tag repo strict now fs).2 =
      (buildArtifactMap artifacts).2 ++
        (buildPlatforms fs (baseUrlOf repo tag) (buildArtifactMap artifacts).1).2 := rfl
  refine ⟨?_, ?_, ?_⟩
  · rw [hplat]
    exact bp_fold_keys_nodup fs _ _ ([], []) (by simp)
  · intro k e hmem
    rw [hplat] at hmem
    rcases bp_fold_mem fs _ _ ([], []) (k, e) hmem with h1 | ⟨b, sp, s, h2, h3, h4⟩
    · exact absurd h1 (List.not_mem_nil _)
    · have hgood := bam_fold_good artifacts ([], []) (by simp) _ h2
      rcases hgood with ⟨hsfx, hsp, info, hinfo, hk⟩
      simp only [] at hsfx hsp hk
      subst hsp
      exact ⟨b, s, h2, hsfx, ⟨info, hinfo, hk⟩, h3, h4⟩
  · intro k b sp hmem hnone
    have hres := bp_fold_missing_sig fs (baseUrlOf repo tag) (buildArtifactMap artifacts).1
      k b sp ([], []) hmem hnone hnodupam (by simp)
    constructor
    · rw [hplat]
      exact hres.1
    · rw [hwarn]
      exact List.mem_append_right _ hres.2

set_option maxRecDepth 10000 in
/-- Witness for C4 at a concrete input: the single manifest entry of a
one-bundle artifact set is backed by a classified bundle with an
existing, read signature file. -/
theorem platforms_pairing_invariant_witness :
    ∃ b s,
      ("linux-aarch64", (b, sigPathOf b)) ∈
        (buildArtifactMap [⟨["out"], "AstrBot_3.0.0_linux_aarch64_updater.tar.gz"⟩]).1 ∧
      ¬ pySuffix b.fname = ".sig" ∧
      (∃ info, extract_platform_info b.fname = some info ∧
        "linux-aarch64" = info.1 ++ "-" ++ info.2) ∧
      fsRead ⟨[(⟨["out"], "AstrBot_3.0.0_linux_aarch64_updater.tar.gz.sig"⟩, "zzz")]⟩
        (sigPathOf b) = some s ∧
      (⟨"zzz", baseUrlOf "o/r" "v3" ++ "/" ++ "AstrBot_3.0.0_linux_aarch64_updater.tar.gz"⟩ :
        ManifestEntry) = ⟨pyStrip s, baseUrlOf "o/r" "v3" ++ "/" ++ b.fname⟩ :=
  (platforms_pairing_invariant [⟨["out"], "AstrBot_3.0.0_linux_aarch64_updater.tar.gz"⟩]
      "3.0.0" "v3" "o/r" false "now"
      ⟨[(⟨["out"], "AstrBot_3.0.0_linux_aarch64_updater.tar.gz.sig"⟩, "zzz")]⟩).2.1
    "linux-aarch64"
    ⟨"zzz", baseUrlOf "o/r" "v3" ++ "/" ++ "AstrBot_3.0.0_linux_aarch64_updater.tar.gz"⟩
    (by decide)

/-! ### DuplicateGuard (`src/scripts/ci/validate-release-artifacts.py`)

The filesystem is a set of directory paths and file paths given as
component lists; `rglob("*")` enumerates everything strictly below the
root and `is_file()` keeps the files.  Output is modelled as the exit
code plus the stdout and stderr lines. -/

structure TreeFS where
  dirs : List (List String)
  files : List (List String)

/-- Split a path string on `/`, dropping empty components (the component
view `pathlib` takes of a path; the absolute-root marker is not kept). -/
def splitSlashAux : List Char → List Char → List (List Char)
  | [], cur => [cur.reverse]
  | c :: rest, cur =>
    if c = '/' then cur.reverse :: splitSlashAux rest []
    else splitSlashAux rest (c :: cur)

def splitPath (s : String) : List String :=
  ((splitSlashAux s.toList []).map String.mk).filter (fun c => ¬ c = "")

/-- Tests whether `path` lies strictly below `root`. -/
def underRoot (root p : List String) : Bool := root.isPrefixOf p && ¬ p = root

/-- Embedding of `path.name`: the final component. -/
def baseNameOf (p : List String) : String := p.getLastD ""

/-- The `defaultdict(list)` grouping step: append `p` to the group of
`name`, creating the group at the end on first sight (dict insertion
order). -/
def addToGroup (g : List (String × List (List String))) (name : String) (p : List String) :
    List (String × List (List String)) :=
  match g with
  | [] => [(name, [p])]
  | (k, v) :: rest =>
    if k = name then (k, v ++ [p]) :: rest else (k, v) :: addToGroup rest name p

/-- Embedding of `by_name`: group the scanned files by basename, in scan order. -/
def groupByName (ps : List (List String)) : List (String × List (List String)) :=
  ps.foldl (fun g p => addToGroup g (baseNameOf p) p) []

/-- Code-point comparison of strings (Python's `str` ordering, used by
`sorted`), computed on the character lists. -/
def strLeChars : List Char → List Char → Bool
  | [], _ => true
  | _ :: _, [] => false
  | a :: as, b :: bs =>
    if a.toNat < b.toNat then true
    else if b.toNat < a.toNat then false
    else strLeChars as bs

def strLeB (a b : String) : Bool := strLeChars a.toList b.toList

def sortInsert {α : Type} (le : α → α → Bool) (x : α) : List α → List α
  | [] => [x]
  | y :: ys => if le x y then x :: y :: ys else y :: sortInsert le x ys

/-- Insertion sort (the model of `sorted`; only the multiset of printed
lines matters to the claims, so stability is irrelevant). -/
def insSort {α : Type} (le : α → α → Bool) : List α → List α
  | [] => []
  | x :: xs => sortInsert le x (insSort le xs)

/-- Embedding of `str(path)`: components joined with `/`. -/
def renderPath : List String → String
  | [] => ""
  | [x] => x
  | x :: rest => x ++ "/" ++ renderPath rest

/-- Embedding of `main` of `validate-release-artifacts.py`: usage error on a wrong
argument count; exit 1 when the root is missing or not a directory;
group all files strictly below the root by basename; if any basename
has more than one path, print every offending name and path to stderr
and exit 1; otherwise report success on stdout and exit 0. -/
def validateMain (argv : List String) (fs : TreeFS) : Nat × List String × List String :=
  if ¬ argv.length = 2 then
    (2, [], ["Usage: validate-release-artifacts.py <release-artifacts-dir>"])
  else
    let rootStr := argv.getD 1 ""
    let root := splitPath rootStr
    if ¬ (root ∈ fs.dirs ∨ root ∈ fs.files) then
      (1, [], ["Artifacts directory not found: " ++ rootStr])
    else if ¬ root ∈ fs.dirs then
      (1, [], ["Artifacts path is not a directory: " ++ rootStr])
    else
      let found := fs.files.filter (fun p => underRoot root p)
      let duplicates := (groupByName found).filter (fun kv => kv.2.length > 1)
      if ¬ duplicates.isEmpty then
        (1, [],
          "Duplicate artifact filenames detected after merge:" ::
            (insSort (fun a b => strLeB a.1 b.1) duplicates).flatMap
              (fun kv => ("- " ++ kv.1) ::
                (insSort strLeB (kv.2.map renderPath)).map (fun p => "  - " ++ p)))
      else
        (0, ["No duplicate artifact filenames detected."], [])

/-! ### Claim C3 — the duplicate-basename guard -/

def gfind : List (String × List (List String)) → String → Option (String × List (List String))
  | [], _ => none
  | kv :: rest, k => if kv.1 = k then some kv else gfind rest k

def gvals (g : List (String × List (List String))) (k : String) : List (List String) :=
  ((gfind g k).map Prod.snd).getD []

theorem gfind_mem (g : List (String × List (List String))) (k : String)
    (kv : String × List (List String)) (h : gfind g k = some kv) : kv ∈ g ∧ kv.1 = k := by
  induction g with
  | nil => exact Option.noConfusion h
  | cons hd tl ih =>
    unfold gfind at h
    split at h
    · injection h with h1
      subst h1
      exact ⟨List.mem_cons_self _ _, by assumption⟩
    · rcases ih h with ⟨h2, h3⟩
      exact ⟨List.mem_cons_of_mem _ h2, h3⟩

theorem gfind_addToGroup (g : List (String × List (List String))) (name : String)
    (p : List String) (k : String) :
    gfind (addToGroup g name p) k =
      if k = name then some (name, gvals g k ++ [p]) else gfind g k := by
  induction g with
  | nil =>
    unfold addToGroup gfind
    by_cases hk : k = name
    · subst hk
      rw [if_pos rfl, if_pos rfl]
      rfl
    · rw [if_neg (fun h => hk h.symm), if_neg hk]
      rfl
  | cons hd tl ih =>
    unfold addToGroup
    by_cases h0 : hd.1 = name
    · rw [if_pos h0]
      by_cases hk : k = hd.1
      · subst hk
        simp [gfind, gvals, h0]
      · have hkn : ¬ k = name := fun h => hk (h.trans h0.symm)
        have h1 : ¬ hd.1 = k := fun h => hk h.symm
        simp [gfind, h1, hkn]
    · rw [if_neg h0]
      by_cases hk : k = hd.1
      · subst hk
        have h2 : ¬ hd.1 = name := h0
        simp [gfind, h2]
      · have h1 : ¬ hd.1 = k := fun h => hk h.symm
        simp only [gfind, if_neg h1]
        rw [ih]
        unfold gvals
        simp only [gfind, if_neg h1]

theorem gvals_groupFold (ps : List (List String)) :
    ∀ (g : List (String × List (List String))) (k : String),
      gvals (ps.foldl (fun g p => addToGroup g (baseNameOf p) p) g) k =
        gvals g k ++ ps.filter (fun p => baseNameOf p = k) := by
  induction ps with
  | nil =>
    intro g k
    simp
  | cons p rest ih =>
    intro g k
    rw [List.foldl_cons, ih]
    by_cases hk : k = baseNameOf p
    · subst hk
      have : gvals (addToGroup g (baseNameOf p) p) (baseNameOf p) =
          gvals g (baseNameOf p) ++ [p] := by
        unfold gvals
        rw [gfind_addToGroup, if_pos rfl]
        rfl
      rw [this]
      rw [List.filter_cons]
      simp
    · have : gvals (addToGroup g (baseNameOf p) p) k = gvals g k := by
        unfold gvals
        rw [gfind_addToGroup, if_neg hk]
      rw [this, List.filter_cons]
      have : (decide (baseNameOf p = k)) = false := decide_eq_false (fun h => hk h.symm)
      rw [this]
      simp

theorem gvals_groupByName (ps : List (List String)) (k : String) :
    gvals (groupByName ps) k = ps.filter (fun p => baseNameOf p = k) := by
  unfold groupByName
  rw [gvals_groupFold]
  rfl

theorem groupByName_entry (ps : List (List String)) (kv : String × List (List String))
    (h : gfind (groupByName ps) kv.1 = some kv) :
    kv.2 = ps.filter (fun p => baseNameOf p = kv.1) := by
  have := gvals_groupByName ps kv.1
  unfold gvals at this
  rw [h] at this
  exact this

theorem addToGroup_keys_sub (g : List (String × List (List String))) (name : String)
    (p : List String) (a : String) (h : a ∈ (addToGroup g name p).map Prod.fst) :
    a ∈ g.map Prod.fst ∨ a = name := by
  induction g with
  | nil =>
    simp [addToGroup] at h
    exact Or.inr h
  | cons hd tl ih =>
    unfold addToGroup at h
    split at h
    · simp only [List.map_cons, List.mem_cons] at h ⊢
      rcases h with h | h
      · exact Or.inl (Or.inl h)
      · exact Or.inl (Or.inr h)
    · simp only [List.map_cons, List.mem_cons] at h ⊢
      rcases h with h | h
      · exact Or.inl (Or.inl h)
      · rcases ih h with h1 | h1
        · exact Or.inl (Or.inr h1)
        · exact Or.inr h1

theorem addToGroup_keys_nodup (g : List (String × List (List String))) (name : String)
    (p : List String) (h : (g.map Prod.fst).Nodup) :
    ((addToGroup g name p).map Prod.fst).Nodup := by
  induction g with
  | nil => simp [addToGroup]
  | cons hd tl ih =>
    unfold addToGroup
    split
    · simpa using h
    · rename_i hne
      simp only [List.map_cons, List.nodup_cons] at h ⊢
      refine ⟨fun hc => ?_, ih h.2⟩
      rcases addToGroup_keys_sub tl name p hd.1 hc with h1 | h1
      · exact h.1 h1
      · exact hne h1

theorem groupByName_keys_nodup (ps : List (List String)) :
    (((groupByName ps)).map Prod.fst).Nodup := by
  unfold groupByName
  suffices hgen : ∀ g : List (String × List (List String)), (g.map Prod.fst).Nodup →
      (((ps.foldl (fun g p => addToGroup g (baseNameOf p) p) g)).map Prod.fst).Nodup by
    exact hgen [] (by simp)
  induction ps with
  | nil =>
    intro g hg
    exact hg
  | cons p rest ih =>
    intro g hg
    rw [List.foldl_cons]
    exact ih _ (addToGroup_keys_nodup g (baseNameOf p) p hg)

theorem gfind_of_mem_nodup (g : List (String × List (List String)))
    (kv : String × List (List String)) (hn : (g.map Prod.fst).Nodup) (h : kv ∈ g) :
    gfind g kv.1 = some kv := by
  induction g with
  | nil => exact absurd h (List.not_mem_nil _)
  | cons hd tl ih =>
    simp only [List.map_cons, List.nodup_cons] at hn
    rcases List.mem_cons.mp h with h1 | h1
    · subst h1
      unfold gfind
      rw [if_pos rfl]
    · have hne : ¬ hd.1 = kv.1 := by
        intro hc
        exact hn.1 (hc ▸ List.mem_map.mpr ⟨kv, h1, rfl⟩)
      unfold gfind
      rw [if_neg hne]
      exact ih hn.2 h1

theorem nodup_one_lt_length {α : Type} (m : List α) (hm : m.Nodup) :
    1 < m.length ↔ ∃ p q, p ∈ m ∧ q ∈ m ∧ ¬ p = q := by
  constructor
  · intro h
    match m, h with
    | a :: b :: t, _ =>
      simp only [List.nodup_cons, List.mem_cons] at hm
      exact ⟨a, b, List.mem_cons_self _ _,
        List.mem_cons_of_mem _ (List.mem_cons_self _ _),
        fun hc => hm.1 (Or.inl hc)⟩
  · rintro ⟨p, q, hp, hq, hne⟩
    match m, hp, hq with
    | [x], hp, hq =>
      simp only [List.mem_singleton] at hp hq
      exact absurd (hp.trans hq.symm) hne
    | a :: b :: t, _, _ => simp

theorem mem_sortInsert {α : Type} (le : α → α → Bool) (x a : α) (l : List α) :
    a ∈ sortInsert le x l ↔ a = x ∨ a ∈ l := by
  induction l with
  | nil => simp [sortInsert]
  | cons y ys ih =>
    unfold sortInsert
    split
    · simp
    · simp only [List.mem_cons, ih]
      tauto

theorem mem_insSort {α : Type} (le : α → α → Bool) (a : α) (l : List α) :
    a ∈ insSort le l ↔ a ∈ l := by
  induction l with
  | nil => simp [insSort]
  | cons x xs ih =>
    unfold insSort
    rw [mem_sortInsert, ih]
    simp

theorem dup_iff_pair (found : List (List String)) (hfoundnd : found.Nodup) :
    ((groupByName found).filter (fun kv => kv.2.length > 1)) = [] ↔
      ¬ ∃ p q, p ∈ found ∧ q ∈ found ∧ ¬ p = q ∧ baseNameOf p = baseNameOf q := by
  constructor
  · intro hnil ⟨p, q, hp, hq, hne, hname⟩
    have hsubnd : (found.filter (fun r => baseNameOf r = baseNameOf p)).Nodup :=
      hfoundnd.filter _
    have hpmem : p ∈ found.filter (fun r => baseNameOf r = baseNameOf p) :=
      List.mem_filter.mpr ⟨hp, by simp⟩
    have hqmem : q ∈ found.filter (fun r => baseNameOf r = baseNameOf p) :=
      List.mem_filter.mpr ⟨hq, by simp [hname]⟩
    have hlen : 1 < (found.filter (fun r => baseNameOf r = baseNameOf p)).length :=
      (nodup_one_lt_length _ hsubnd).mpr ⟨p, q, hpmem, hqmem, hne⟩
    have hgv := gvals_groupByName found (baseNameOf p)
    cases hg : gfind (groupByName found) (baseNameOf p) with
    | none =>
      unfold gvals at hgv
      rw [hg] at hgv
      rw [← hgv] at hlen
      simp at hlen
    | some kv =>
      have hkvmem := (gfind_mem _ _ _ hg).1
      have hkv2 : kv.2 = found.filter (fun r => baseNameOf r = baseNameOf p) := by
        unfold gvals at hgv
        rw [hg] at hgv
        exact hgv
      have : kv ∈ (groupByName found).filter (fun kv => kv.2.length > 1) :=
        List.mem_filter.mpr ⟨hkvmem, by simp [hkv2, hlen]⟩
      rw [hnil] at this
      exact absurd this (List.not_mem_nil _)
  · intro hno
    by_contra hne
    rcases List.exists_mem_of_ne_nil _ hne with ⟨kv, hkv⟩
    rcases List.mem_filter.mp hkv with ⟨hkvg, hkvlen⟩
    have hfind : gfind (groupByName found) kv.1 = some kv :=
      gfind_of_mem_nodup _ _ (groupByName_keys_nodup found) hkvg
    have hkv2 : kv.2 = found.filter (fun r => baseNameOf r = kv.1) :=
      groupByName_entry found kv hfind
    have hsubnd : (found.filter (fun r => baseNameOf r = kv.1)).Nodup := hfoundnd.filter _
    have hlen : 1 < (found.filter (fun r => baseNameOf r = kv.1)).length := by
      rw [← hkv2]
      simpa using hkvlen
    rcases (nodup_one_lt_length _ hsubnd).mp hlen with ⟨p, q, hp, hq, hpq⟩
    rcases List.mem_filter.mp hp with ⟨hp1, hp2⟩
    rcases List.mem_filter.mp hq with ⟨hq1, hq2⟩
    exact hno ⟨p, q, hp1, hq1, hpq, by
      have hp3 : baseNameOf p = kv.1 := by simpa using hp2
      have hq3 : baseNameOf q = kv.1 := by simpa using hq2
      rw [hp3, hq3]⟩

/-- C3: with the root existing and being a directory, the guard exits
non-zero exactly when two distinct files below the root share a
basename; in that case the stderr output contains the line for every
offending path; when all basenames below the root are unique it exits
zero.  (`fs.files.Nodup` says the filesystem enumerates each file
once.) -/
theorem duplicate_guard (prog rootStr : String) (fs : TreeFS)
    (hdir : splitPath rootStr ∈ fs.dirs)
    (hnodup : fs.files.Nodup) :
    (¬ (validateMain [prog, rootStr] fs).1 = 0 ↔
      ∃ p q, p ∈ fs.files.filter (fun r => underRoot (splitPath rootStr) r) ∧
        q ∈ fs.files.filter (fun r => underRoot (splitPath rootStr) r) ∧
        ¬ p = q ∧ baseNameOf p = baseNameOf q) ∧
    (∀ p q, p ∈ fs.files.filter (fun r => underRoot (splitPath rootStr) r) →
      q ∈ fs.files.filter (fun r => underRoot (splitPath rootStr) r) →
      ¬ p = q → baseNameOf p = baseNameOf q →
      ("  - " ++ renderPath p) ∈ (validateMain [prog, rootStr] fs).2.2) ∧
    ((∀ p q, p ∈ fs.files.filter (fun r => underRoot (splitPath rootStr) r) →
      q ∈ fs.files.filter (fun r => underRoot (splitPath rootStr) r) →
      baseNameOf p = baseNameOf q → p = q) →
      (validateMain [prog, rootStr] fs).1 = 0) := by
  have hexists : splitPath rootStr ∈ fs.dirs ∨ splitPath rootStr ∈ fs.files := Or.inl hdir
  have hfoundnd : (fs.files.filter (fun r => underRoot (splitPath rootStr) r)).Nodup :=
    hnodup.filter _
  have hget : (([prog, rootStr].get? 1).getD "") = rootStr := rfl
  unfold validateMain
  simp only [List.length_cons, List.length_nil, List.getD, not_true_eq_false, if_false,
    Nat.reduceAdd, hget, ite_not]
  rw [if_pos hexists, if_pos hdir]
  by_cases hd : (List.filter (fun kv => decide (kv.2.length > 1))
      (groupByName (List.filter (fun p => underRoot (splitPath rootStr) p) fs.files))).isEmpty = true
  · rw [if_pos hd]
    have hnopair := (dup_iff_pair _ hfoundnd).mp (List.isEmpty_iff.mp hd)
    refine ⟨?_, ?_, fun _ => rfl⟩
    · simp only [not_true_eq_false, false_iff]
      exact hnopair
    · intro p q hp hq hne hname
      exact absurd ⟨p, q, hp, hq, hne, hname⟩ hnopair
  · rw [if_neg hd]
    have hpair : ∃ p q, p ∈ fs.files.filter (fun r => underRoot (splitPath rootStr) r) ∧
        q ∈ fs.files.filter (fun r => underRoot (splitPath rootStr) r) ∧
        ¬ p = q ∧ baseNameOf p = baseNameOf q := by
      by_contra hno
      exact hd (List.isEmpty_iff.mpr ((dup_iff_pair _ hfoundnd).mpr hno))
    refine ⟨⟨fun _ => hpair, fun _ => by simp⟩, ?_, ?_⟩
    · intro p q hp hq hne hname
      rcases List.mem_filter.mp hp with ⟨hp1, hp2⟩
      have hsubnd : ((fs.files.filter (fun r => underRoot (splitPath rootStr) r)).filter
          (fun r => baseNameOf r = baseNameOf p)).Nodup := hfoundnd.filter _
      have hpm : p ∈ (fs.files.filter (fun r => underRoot (splitPath rootStr) r)).filter
          (fun r => baseNameOf r = baseNameOf p) := List.mem_filter.mpr ⟨hp, by simp⟩
      have hqm : q ∈ (fs.files.filter (fun r => underRoot (splitPath rootStr) r)).filter
          (fun r => baseNameOf r = baseNameOf p) := List.mem_filter.mpr ⟨hq, by simp [hname]⟩
      have hlen : 1 < ((fs.files.filter (fun r => underRoot (splitPath rootStr) r)).filter
          (fun r => baseNameOf r = baseNameOf p)).length :=
        (nodup_one_lt_length _ hsubnd).mpr ⟨p, q, hpm, hqm, hne⟩
      have hgv := gvals_groupByName
        (fs.files.filter (fun r => underRoot (splitPath rootStr) r)) (baseNameOf p)
      cases hg : gfind (groupByName (fs.files.filter
          (fun r => underRoot (splitPath rootStr) r))) (baseNameOf p) with
      | none =>
        unfold gvals at hgv
        rw [hg] at hgv
        rw [← hgv] at hlen
        simp at hlen
      | some kv =>
        have hkvmem := (gfind_mem _ _ _ hg).1
        have hkv1 := (gfind_mem _ _ _ hg).2
        have hkv2 : kv.2 = (fs.files.filter (fun r => underRoot (splitPath rootStr) r)).filter
            (fun r => baseNameOf r = baseNameOf p) := by
          unfold gvals at hgv
          rw [hg] at hgv
          exact hgv
        have hkvdup : kv ∈ List.filter (fun kv => decide (kv.2.length > 1))
            (groupByName (fs.files.filter (fun r => underRoot (splitPath rootStr) r))) :=
          List.mem_filter.mpr ⟨hkvmem, by rw [hkv2]; exact decide_eq_true hlen⟩
        simp only []
        refine List.mem_cons_of_mem _ (List.mem_flatMap.mpr ⟨kv, ?_, ?_⟩)
        · exact (mem_insSort _ _ _).mpr hkvdup
        · refine List.mem_cons_of_mem _ (List.mem_map.mpr ⟨renderPath p, ?_, rfl⟩)
          refine (mem_insSort _ _ _).mpr (List.mem_map.mpr ⟨p, ?_, rfl⟩)
          rw [hkv2]
          exact hpm
    · intro hall
      rcases hpair with ⟨p, q, hp, hq, hne, hname⟩
      exact absurd (hall p q hp hq hname) hne

/-- A merged artifact tree in which two different jobs produced a file
named `A.zip`. -/
def dupTreeFS : TreeFS :=
  ⟨[["art"]], [["art", "a", "A.zip"], ["art", "b", "A.zip"]]⟩

/-- Witness for C3 at a concrete input: two files named `A.zip` under
different subpaths make the guard exit non-zero and print both
offending paths. -/
theorem duplicate_guard_witness :
    ¬ (validateMain ["validate-release-artifacts.py", "art"] dupTreeFS).1 = 0 ∧
    ("  - " ++ renderPath ["art", "a", "A.zip"]) ∈
      (validateMain ["validate-release-artifacts.py", "art"] dupTreeFS).2.2 ∧
    ("  - " ++ renderPath ["art", "b", "A.zip"]) ∈
      (validateMain ["validate-release-artifacts.py", "art"] dupTreeFS).2.2 := by
  have h := duplicate_guard "validate-release-artifacts.py" "art" dupTreeFS
    (by decide) (by decide)
  refine ⟨h.1.mpr ⟨["art", "a", "A.zip"], ["art", "b", "A.zip"],
      by decide, by decide, by decide, by decide⟩, ?_, ?_⟩
  · exact h.2.1 ["art", "a", "A.zip"] ["art", "b", "A.zip"]
      (by decide) (by decide) (by decide) (by decide)
  · exact h.2.1 ["art", "b", "A.zip"] ["art", "a", "A.zip"]
      (by decide) (by decide) (by decide) (by decide)

/-! ### read-project-version (`src/scripts/ci/read-project-version.py`)

The TOML module (an external library) is modelled as environment
oracles: availability of the parser, the read result, and the value of
`data.get("project", {}).get("version")` when the parse succeeds
(`none` when the field is absent or not a string). -/

structure ReadVersionEnv where
  /-- Value of `pyproject_path.is_file()`. -/
  isFile : Bool
  /-- The `read_text` result: an `OSError` message or the file text. -/
  readResult : Except String String
  /-- Whether `tomllib`/`tomli` could be imported. -/
  tomlAvailable : Bool
  /-- Parse failure, or the resolved `project.version` string field. -/
  parsedVersion : Except Unit (Option String)

/-- Embedding of `main` of `read-project-version.py`: usage error (2) on a wrong
argument count; exit 2 when the input file is missing; exit 1 when the
file cannot be read, no TOML parser is available, the file does not
parse, or `project.version` is absent, not a string, or blank; exit 0
with the stripped version on stdout otherwise. -/
def readVersionMain (argv : List String) (env : ReadVersionEnv) :
    Nat × List String × List String :=
  if ¬ argv.length = 2 then
    (2, [], ["Usage: read-project-version.py <pyproject.toml>"])
  else if ¬ env.isFile then
    (2, [], ["File not found: " ++ argv.getD 1 ""])
  else
    match env.readResult with
    | .error msg => (1, [], ["Failed to read " ++ argv.getD 1 "" ++ ": " ++ msg])
    | .ok _ =>
      if ¬ env.tomlAvailable then
        (1, [], ["No TOML parser available: install Python 3.11+ or add dependency 'tomli'."])
      else
        match env.parsedVersion with
        | .error _ => (1, [], ["Failed to parse " ++ argv.getD 1 ""])
        | .ok none => (1, [], ["Unable to resolve project.version from pyproject.toml"])
        | .ok (some v) =>
          if pyStrip v = "" then
            (1, [], ["Unable to resolve project.version from pyproject.toml"])
          else (0, [pyStrip v], [])

/-! ### Exit codes of the remaining programs

The claim quantifies over every program in the system, so the exit
behavior of the other entry points is embedded as well.  `argparse`
terminating the process with code 2 on a bad command line is documented
library behavior, modelled by an `argsOk` oracle; an uncaught Python
exception makes the interpreter exit with code 1. -/

/-- Exit status of `resolve_packaged_cpython_runtime.py` as a process:
`main` returns normally on success and raises `RuntimeError` on every
failure, which the uncaught-exception path reports with exit code 1. -/
def runtimeResolveExit (env : RuntimeEnv) : Nat :=
  match (runMain env).outcome with
  | .ok _ => 0
  | .error _ => 1

/-- Exit status of `generate-updater-manifest.py`: `argparse` exits 2 on
a bad command line; otherwise `main` returns 1 when the artifact root is
missing and 0 otherwise. -/
def generateExit (argsOk : Bool) (r : GenResult) : Nat :=
  if ¬ argsOk then 2
  else
    match r with
    | .rootMissing => 1
    | .ok _ _ => 0

/-- Exit status of `render-tauri-build-config.py`: `argparse` exits 2 on
a bad command line; a failure to write the output file is an uncaught
exception (exit 1); otherwise `main` returns 0. -/
def renderConfigExit (argsOk writeOk : Bool) : Nat :=
  if ¬ argsOk then 2 else if ¬ writeOk then 1 else 0

/-- Embedding of `normalize_bundle_name` of `resolve-macos-app-name.py`:
strip, drop a trailing `.app` (case-insensitively), strip again. -/
def normalize_bundle_name (name : String) : String :=
  let normalized := pyStrip name
  let trimmed :=
    if strEndsWith (strLower normalized) ".app" then
      String.mk (normalized.toList.take (normalized.toList.length - 4))
    else normalized
  pyStrip trimmed

/-- Exit status of `resolve-macos-app-name.py`: `argparse` exits 2 on a
bad command line; a `RuntimeError` — the config file missing or without
a usable product name (the `configResolve` oracle) or a name that is
empty after normalization — is caught at top level and exits 1;
otherwise 0.  A non-blank `--override-name` bypasses the config. -/
def resolveMacosExit (argsOk : Bool) (overrideName : String)
    (configResolve : Except Unit String) : Nat :=
  if ¬ argsOk then 2
  else
    match (if ¬ pyStrip overrideName = "" then Except.ok overrideName else configResolve) with
    | .error _ => 1
    | .ok raw => if normalize_bundle_name raw = "" then 1 else 0

/-- The JSON payload printed by `read-requires-python.py`. -/
inductive RequiresPyOut
  | tomlUnavailable
  | parseFailed
  | result (requiresPython : Option String)
deriving DecidableEq, Repr

/-- Embedding of `read-requires-python.py` (a module-level script): a
missing command-line argument raises an uncaught `IndexError` at
`sys.argv[1]` (exit 1); an unavailable TOML parser, or any failure of
`read_text`/`loads` — including a missing input file — is caught and
reported as a JSON error payload with exit code 0; otherwise the
`requires-python` field is emitted and the script exits 0. -/
def readRequiresMain (argProvided : Bool) (tomlAvailable : Bool)
    (readParse : Except Unit (Option String)) : Nat × Option RequiresPyOut :=
  if ¬ argProvided then (1, none)
  else if ¬ tomlAvailable then (0, some .tomlUnavailable)
  else
    match readParse with
    | .error _ => (0, some .parseFailed)
    | .ok rp => (0, some (.result rp))

/-- Exit status of the `launch_backend.py` template: a missing backend
entrypoint raises an uncaught `FileNotFoundError` (exit 1); otherwise
the process runs the backend via `runpy` and exits with the backend's
own status. -/
def launchBackendExit (entrypointExists : Bool) (backendExit : Nat) : Nat :=
  if ¬ entrypointExists then 1 else backendExit

/-! ### Claim C9 — exit codes -/

/-- Counterexample to C9 as stated: a missing required input file is not
an operational failure with exit code 1 in every program —
`read-project-version.py` exits 2 on a missing input file, and
`read-requires-python.py` exits 0 on an unreadable or missing input
(reporting the failure as a JSON payload) and exits 1, not 2, on a
missing required argument. -/
theorem exit_code_discipline_counterexample :
    (readVersionMain ["read-project-version.py", "missing.toml"]
      ⟨false, .ok "", true, .ok none⟩).1 = 2 ∧
    (readRequiresMain true true (.error ())).1 = 0 ∧
    (readRequiresMain false true (.ok none)).1 = 1 :=
  ⟨rfl, rfl, rfl⟩

/-- C9 (amended): every program in the system exits with code 0 on
success, code 1 on operational failure (runtime-pipeline failures such
as an integrity mismatch, a missing artifacts directory or
non-directory root, duplicate artifacts, an unreadable or unparseable
project manifest, an unresolvable version or bundle name) and code 2 on
usage error (bad arguments) — with these exceptions:
`read-project-version.py` exits 2, not 1, when its required input file
is missing; and `read-requires-python.py` reports operational failures
(unavailable TOML parser, unreadable/unparseable or missing input) as a
JSON error payload with exit code 0, and exits 1, not 2, when its
required argument is missing. -/
theorem exit_code_discipline :
    (∀ argv env, ¬ argv.length = 2 → (readVersionMain argv env).1 = 2) ∧
    (∀ p f env, env.isFile = false → (readVersionMain [p, f] env).1 = 2) ∧
    (∀ p f env msg, env.isFile = true → env.readResult = .error msg →
      (readVersionMain [p, f] env).1 = 1) ∧
    (∀ p f env t, env.isFile = true → env.readResult = .ok t → env.tomlAvailable = false →
      (readVersionMain [p, f] env).1 = 1) ∧
    (∀ p f env t, env.isFile = true → env.readResult = .ok t → env.tomlAvailable = true →
      env.parsedVersion = .error () → (readVersionMain [p, f] env).1 = 1) ∧
    (∀ p f env t, env.isFile = true → env.readResult = .ok t → env.tomlAvailable = true →
      env.parsedVersion = .ok none → (readVersionMain [p, f] env).1 = 1) ∧
    (∀ p f env t v, env.isFile = true → env.readResult = .ok t → env.tomlAvailable = true →
      env.parsedVersion = .ok (some v) → pyStrip v = "" →
      (readVersionMain [p, f] env).1 = 1) ∧
    (∀ p f env t v, env.isFile = true → env.readResult = .ok t → env.tomlAvailable = true →
      env.parsedVersion = .ok (some v) → ¬ pyStrip v = "" →
      (readVersionMain [p, f] env).1 = 0 ∧ (readVersionMain [p, f] env).2.1 = [pyStrip v]) ∧
    (∀ argv env, (readVersionMain argv env).1 = 0 ∨ (readVersionMain argv env).1 = 1 ∨
      (readVersionMain argv env).1 = 2) ∧
    (∀ argv fs, ¬ argv.length = 2 → (validateMain argv fs).1 = 2) ∧
    (∀ p r fs, ¬ (splitPath r ∈ fs.dirs ∨ splitPath r ∈ fs.files) →
      (validateMain [p, r] fs).1 = 1) ∧
    (∀ p r fs, splitPath r ∈ fs.files → splitPath r ∉ fs.dirs →
      (validateMain [p, r] fs).1 = 1) ∧
    (∀ p r fs, splitPath r ∈ fs.dirs →
      ¬ (groupByName (fs.files.filter (fun q => underRoot (splitPath r) q))).filter
          (fun kv => kv.2.length > 1) = [] →
      (validateMain [p, r] fs).1 = 1) ∧
    (∀ p r fs, splitPath r ∈ fs.dirs →
      (groupByName (fs.files.filter (fun q => underRoot (splitPath r) q))).filter
          (fun kv => kv.2.length > 1) = [] →
      (validateMain [p, r] fs).1 = 0 ∧
      (validateMain [p, r] fs).2.1 = ["No duplicate artifact filenames detected."]) ∧
    (∀ argv fs, (validateMain argv fs).1 = 0 ∨ (validateMain argv fs).1 = 1 ∨
      (validateMain argv fs).1 = 2) ∧
    (∀ env, ((runMain env).outcome = Except.ok () → runtimeResolveExit env = 0) ∧
      ∀ e, (runMain env).outcome = Except.error e → runtimeResolveExit env = 1) ∧
    ((∀ r, generateExit false r = 2) ∧
     (∀ files version tag repo strict now sfs,
       generateExit true (generateMain false files version tag repo strict now sfs) = 1) ∧
     (∀ files version tag repo strict now sfs,
       generateExit true (generateMain true files version tag repo strict now sfs) = 0)) ∧
    ((∀ w, renderConfigExit false w = 2) ∧ renderConfigExit true false = 1 ∧
      renderConfigExit true true = 0) ∧
    ((∀ ov cr, resolveMacosExit false ov cr = 2) ∧
     (∀ ov, pyStrip ov = "" → resolveMacosExit true ov (.error ()) = 1) ∧
     (∀ ov cr raw, pyStrip ov = "" → cr = Except.ok raw → normalize_bundle_name raw = "" →
       resolveMacosExit true ov cr = 1) ∧
     (∀ ov cr raw, pyStrip ov = "" → cr = Except.ok raw → ¬ normalize_bundle_name raw = "" →
       resolveMacosExit true ov cr = 0)) ∧
    ((∀ t rp, (readRequiresMain false t rp).1 = 1) ∧
     (∀ rp, readRequiresMain true false rp = (0, some .tomlUnavailable)) ∧
     readRequiresMain true true (.error ()) = (0, some .parseFailed) ∧
     (∀ rp, readRequiresMain true true (.ok rp) = (0, some (.result rp)))) ∧
    ((∀ b, launchBackendExit false b = 1) ∧ (∀ b, launchBackendExit true b = b)) := by
  refine ⟨?_, ?_, ?_, ?_, ?_, ?_, ?_, ?_, ?_, ?_, ?_, ?_, ?_, ?_, ?_, ?_, ?_, ?_, ?_, ?_, ?_⟩
  · intro argv env h
    unfold readVersionMain
    rw [if_pos h]
  · intro p f env h
    unfold readVersionMain
    simp [h]
  · intro p f env msg hf hr
    unfold readVersionMain
    simp only [List.length_cons, List.length_nil, Nat.reduceAdd, not_true_eq_false, if_false,
      hf, hr, ite_not]
  · intro p f env t hf hr ht
    unfold readVersionMain
    simp only [List.length_cons, List.length_nil, Nat.reduceAdd, not_true_eq_false, if_false,
      hf, hr, ht, ite_not]
    rfl
  · intro p f env t hf hr ht hp
    unfold readVersionMain
    simp only [List.length_cons, List.length_nil, Nat.reduceAdd, not_true_eq_false, if_false,
      hf, hr, ht, hp, ite_not]
  · intro p f env t hf hr ht hp
    unfold readVersionMain
    simp only [List.length_cons, List.length_nil, Nat.reduceAdd, not_true_eq_false, if_false,
      hf, hr, ht, hp, ite_not]
  · intro p f env t v hf hr ht hp hv
    unfold readVersionMain
    simp only [List.length_cons, List.length_nil, Nat.reduceAdd, not_true_eq_false, if_false,
      hf, hr, ht, hp, hv, ite_not]
    rfl
  · intro p f env t v hf hr ht hp hv
    unfold readVersionMain
    simp only [List.length_cons, List.length_nil, Nat.reduceAdd, not_true_eq_false, if_false,
      hf, hr, ht, hp, hv, ite_not]
    exact ⟨trivial, trivial⟩
  · intro argv env
    unfold readVersionMain
    repeat' split
    all_goals first
      | exact Or.inl rfl
      | exact Or.inr (Or.inl rfl)
      | exact Or.inr (Or.inr rfl)
  · intro argv fs h
    unfold validateMain
    rw [if_pos h]
  · intro p r fs h
    unfold validateMain
    rw [if_neg (show ¬ ¬ [p, r].length = 2 by simp)]
    dsimp only
    split
    · rfl
    · rename_i hc
      exact absurd (not_not.mp hc) h
  · intro p r fs hfile hnd
    unfold validateMain
    rw [if_neg (show ¬ ¬ [p, r].length = 2 by simp)]
    dsimp only
    rw [show ([p, r].getD 1 "") = r from rfl]
    rw [if_neg (not_not_intro (Or.inr hfile)), if_pos hnd]
  · intro p r fs hdir hdup
    unfold validateMain
    rw [if_neg (show ¬ ¬ [p, r].length = 2 by simp)]
    dsimp only
    rw [show ([p, r].getD 1 "") = r from rfl]
    rw [if_neg (not_not_intro (Or.inl hdir)), if_neg (not_not_intro hdir)]
    rw [if_pos (show ¬ _ = true from fun hc => hdup (List.isEmpty_iff.mp hc))]
  · intro p r fs hdir hdup
    unfold validateMain
    rw [if_neg (show ¬ ¬ [p, r].length = 2 by simp)]
    dsimp only
    rw [show ([p, r].getD 1 "") = r from rfl]
    rw [if_neg (not_not_intro (Or.inl hdir)), if_neg (not_not_intro hdir)]
    rw [if_neg (not_not_intro (List.isEmpty_iff.mpr hdup))]
    exact ⟨rfl, rfl⟩
  · intro argv fs
    unfold validateMain
    dsimp only
    repeat' split
    all_goals first
      | exact Or.inl rfl
      | exact Or.inr (Or.inl rfl)
      | exact Or.inr (Or.inr rfl)
  · intro env
    constructor
    · intro h
      unfold runtimeResolveExit
      rw [h]
    · intro e h
      unfold runtimeResolveExit
      rw [h]
  · refine ⟨fun r => rfl, fun _ _ _ _ _ _ _ => rfl, ?_⟩
    intro files version tag repo strict now sfs
    by_cases ha : (find_updater_artifacts files).isEmpty = true
    · unfold generateMain generateExit
      simp [ha]
    · unfold generateMain generateExit
      simp [ha]
  · exact ⟨fun w => rfl, rfl, rfl⟩
  · refine ⟨fun ov cr => rfl, ?_, ?_, ?_⟩
    · intro ov hov
      unfold resolveMacosExit
      simp [hov]
    · intro ov cr raw hov hcr hraw
      unfold resolveMacosExit
      simp [hov, hcr, hraw]
    · intro ov cr raw hov hcr hraw
      unfold resolveMacosExit
      simp [hov, hcr, hraw]
  · exact ⟨fun t rp => rfl, fun rp => rfl, rfl, fun rp => rfl⟩
  · exact ⟨fun b => rfl, fun b => rfl⟩

/-- Witness for the amended C9 at concrete inputs: a missing-file run of
`read-project-version.py` exits 2; a missing artifacts directory makes
`validate-release-artifacts.py` exit 1; duplicate artifacts make it
exit 1; an unresolvable `project.version` makes
`read-project-version.py` exit 1. -/
theorem exit_code_discipline_witness :
    (readVersionMain ["read-project-version.py", "gone.toml"]
      ⟨false, .ok "", true, .ok none⟩).1 = 2 ∧
    (validateMain ["validate-release-artifacts.py", "gone"] ⟨[], []⟩).1 = 1 ∧
    (validateMain ["validate-release-artifacts.py", "art"] dupTreeFS).1 = 1 ∧
    (readVersionMain ["read-project-version.py", "p.toml"]
      ⟨true, .ok "x", true, .ok none⟩).1 = 1 := by
  obtain ⟨h1, h2, h3, h4, h5, h6, h7, h8, h9, h10, h11, h12, h13, h14, h15, h16, h17,
    h18, h19, h20, h21⟩ := exit_code_discipline
  exact ⟨h2 "read-project-version.py" "gone.toml" ⟨false, .ok "", true, .ok none⟩ rfl,
    h11 "validate-release-artifacts.py" "gone" ⟨[], []⟩ (by decide),
    h13 "validate-release-artifacts.py" "art" dupTreeFS (by decide) (by decide),
    h6 "read-project-version.py" "p.toml" ⟨true, .ok "x", true, .ok none⟩ "x" rfl rfl rfl rfl⟩
